import Mathlib

/-!
Shallow embedding of the workspace-manager Workspace Lifecycle Engine
(`pkg/wsm/workspace.go`) and verification of the frozen claims about it.

Modelling conventions:
* A filesystem path is a list of segments (`Path`); the model filesystem is the
  finite set of existing paths (`List Path`).  File contents are not observed by
  any claim, so the filesystem records existence only.
* External `git` invocations are shallow-embedded as a `GitCmd` value interpreted
  by `execGit`; whether an external command succeeds is decided by an oracle in
  `Env` (mirroring the fact that the Go code shells out and branches on the
  exit status).  A `git worktree add` that succeeds creates the target path; a
  `git worktree remove` that succeeds deletes the target path and everything
  under it.
* Interactive answers (the `huh` select form in `createWorktree`, the stdin
  prompt in `CreateWorktreeForAdd`) are injected through `Env`, matching the
  spec's treatment of the conflict policy as an injectable dependency.  A form
  abort surfaces as a choice value that is not one of the recognized answers.
* Observable side effects (git invocations, warnings logged by best-effort
  steps, persists of workspace records) are recorded in an event trace.
* `os.Stat` is modelled as set membership (the "stat failed for another reason"
  branches never fire in the model); `os.Remove`/`os.RemoveAll` are modelled as
  total operations on the model filesystem.
-/

namespace Wsm

/-- A filesystem path, as a list of segments. -/
abbrev Path := List String

/-- `pathLe p q` is true when `p` is an ancestor of `q` or equal to it
(segment-wise prefix). -/
def pathLe : Path → Path → Bool
  | [], _ => true
  | _ :: _, [] => false
  | a :: as, b :: bs => a == b && pathLe as bs

/-- Membership test of the model filesystem (`os.Stat` exists-check). -/
def pathExists (fs : List Path) (p : Path) : Bool := fs.contains p

/-- Insert a path into the model filesystem. -/
def fsInsert (fs : List Path) (p : Path) : List Path :=
  if fs.contains p then fs else p :: fs

/-- `os.MkdirAll`: create the directory and all its ancestors. -/
def fsMkdirAll (fs : List Path) (p : Path) : List Path :=
  (p.inits.filter (fun q => !q.isEmpty)).foldl fsInsert fs

/-- `os.RemoveAll`: delete the path and everything under it. -/
def fsRemoveAll (fs : List Path) (p : Path) : List Path :=
  fs.filter (fun q => !(pathLe p q))

/-- `os.Remove` on a single path. -/
def fsRemove (fs : List Path) (p : Path) : List Path :=
  fs.filter (fun q => q ≠ p)

/-- Names of the immediate children of a directory (`os.ReadDir`). -/
def dirEntries (fs : List Path) (d : Path) : List String :=
  (fs.filter (fun q => q.length == d.length + 1 && pathLe d q)).filterMap
    (fun q => q.getLast?)

/-- Registry snapshot of one repository (fields used by the lifecycle engine). -/
structure Repository where
  name : String
  path : String
  currentBranch : String
  categories : List String
deriving DecidableEq

/-- A persisted workspace record (`Workspace` in the source). -/
structure Workspace where
  name : String
  path : Path
  repositories : List Repository
  branch : String
  created : Nat
  goWorkspace : Bool
  agentMD : String
deriving DecidableEq

/-- Ephemeral record of one materialized worktree (`WorktreeInfo`). -/
structure WorktreeInfo where
  repository : Repository
  targetPath : Path
  branch : String
deriving DecidableEq

/-- The distinct external git invocations issued by the lifecycle engine,
one constructor per distinct argument shape appearing in the source. -/
inductive GitCmd where
  /-- `git worktree add target` -/
  | add (target : Path)
  /-- `git worktree add -b branch target` -/
  | addNewBranch (branch : String) (target : Path)
  /-- `git worktree add -b branch target origin/branch` -/
  | addTrackRemote (branch : String) (target : Path)
  /-- `git worktree add -B branch target` -/
  | addForceReset (branch : String) (target : Path)
  /-- `git worktree add -B branch target origin/branch` -/
  | addForceResetRemote (branch : String) (target : Path)
  /-- `git worktree add target branch` -/
  | addExisting (target : Path) (branch : String)
  /-- `git worktree remove [--force] target` -/
  | remove (target : Path) (force : Bool)
  /-- `git worktree list` (debug output only) -/
  | list
deriving DecidableEq

/-- The target path a git worktree command operates on. -/
def gitCmdTarget : GitCmd → Path
  | .add t => t
  | .addNewBranch _ t => t
  | .addTrackRemote _ t => t
  | .addForceReset _ t => t
  | .addForceResetRemote _ t => t
  | .addExisting t _ => t
  | .remove t _ => t
  | .list => []

/-- Whether a git command is one of the `worktree add` variants
(an external checkout invocation). -/
def GitCmd.isAdd : GitCmd → Bool
  | .add _ => true
  | .addNewBranch _ _ => true
  | .addTrackRemote _ _ => true
  | .addForceReset _ _ => true
  | .addForceResetRemote _ _ => true
  | .addExisting _ _ => true
  | .remove _ _ => false
  | .list => false

/-- Observable events emitted by the engine. -/
inductive Event where
  /-- An external git invocation, tagged with the repository directory it runs in. -/
  | git (repoPath : String) (cmd : GitCmd)
  /-- A warning logged by a best-effort step. -/
  | warn (msg : String)
  /-- A workspace record was persisted under this name. -/
  | persist (name : String)
deriving DecidableEq

/-- The environment: oracles for external-command outcomes, branch existence,
and injected interactive answers. -/
structure Env where
  /-- `git show-ref refs/heads/...`: the local branch exists. -/
  localBranchExists : String → String → Bool
  /-- `git show-ref refs/remotes/origin/...`: the remote branch exists. -/
  remoteBranchExists : String → String → Bool
  /-- Whether an external `git worktree add` succeeds (given a free target path). -/
  gitAddOk : String → GitCmd → Bool
  /-- Whether an external `git worktree remove` succeeds: repo dir, target, force. -/
  gitRemoveOk : String → Path → Bool → Bool
  /-- The `huh` select answer in `createWorktree`. -/
  createChoice : String
  /-- The stdin answer in `CreateWorktreeForAdd`. -/
  addChoice : String
  /-- Whether `os.MkdirAll` on the workspace root succeeds. -/
  mkdirOk : Path → Bool
  /-- Whether writing the go.work descriptor succeeds. -/
  goWorkWriteOk : Path → Bool
  /-- Whether reading the agent source file succeeds. -/
  agentReadOk : String → Bool
  /-- Whether writing the agent file into the workspace succeeds. -/
  agentWriteOk : Path → Bool
  /-- Whether persisting the workspace record succeeds. -/
  saveOk : String → Bool
  /-- `time.Now()`. -/
  now : Nat

/-- The world state threaded through the engine. -/
structure St where
  fs : List Path
  records : List (String × Workspace)
  trace : List Event
deriving DecidableEq

/-- `ExecuteWorktreeCommand`: run one external git command, record the
invocation, and update the model filesystem according to the outcome.
A `worktree add` fails when the target path already exists (git refuses it) or
when the external oracle says so; on success it creates the target path.
A `worktree remove` succeeds when the target exists and the oracle allows it;
on success the target and everything under it disappears. -/
def execGit (env : Env) (repoPath : String) (cmd : GitCmd) (s : St) :
    Except String Unit × St :=
  let s₁ : St := { s with trace := s.trace ++ [Event.git repoPath cmd] }
  match cmd with
  | GitCmd.remove target force =>
      if pathExists s₁.fs target && env.gitRemoveOk repoPath target force then
        (Except.ok (), { s₁ with fs := fsRemoveAll s₁.fs target })
      else
        (Except.error "git command failed", s₁)
  | GitCmd.list => (Except.ok (), s₁)
  | c =>
      if pathExists s₁.fs (gitCmdTarget c) then
        (Except.error "git command failed", s₁)
      else if env.gitAddOk repoPath c then
        (Except.ok (), { s₁ with fs := fsInsert s₁.fs (gitCmdTarget c) })
      else
        (Except.error "git command failed", s₁)

/-- `CheckBranchExists`: the Go function runs `git show-ref` and returns
`(err == nil, nil)` — it never returns an error, so it is a pure read. -/
def CheckBranchExists (env : Env) (repoPath branch : String) : Bool :=
  env.localBranchExists repoPath branch

/-- `CheckRemoteBranchExists`: likewise never returns an error. -/
def CheckRemoteBranchExists (env : Env) (repoPath branch : String) : Bool :=
  env.remoteBranchExists repoPath branch

/-- `createWorktree`: the Create-path branch resolution.  Note that this
function performs no existence pre-check on the target path: the conflict is
left to the external `git worktree add` command.  The `huh` form answer is
`env.createChoice`; a form abort surfaces as an unrecognized choice (the form
error path in the source also maps to a cancellation error). -/
def createWorktree (env : Env) (ws : Workspace) (repo : Repository) (s : St) :
    Except String Unit × St :=
  let targetPath := ws.path ++ [repo.name]
  if ws.branch == "" then
    execGit env repo.path (GitCmd.add targetPath) s
  else
    let branchExists := CheckBranchExists env repo.path ws.branch
    let remoteBranchExists := CheckRemoteBranchExists env repo.path ws.branch
    if branchExists then
      match env.createChoice with
      | "overwrite" =>
          if remoteBranchExists then
            execGit env repo.path (GitCmd.addForceResetRemote ws.branch targetPath) s
          else
            execGit env repo.path (GitCmd.addForceReset ws.branch targetPath) s
      | "use" =>
          execGit env repo.path (GitCmd.addExisting targetPath ws.branch) s
      | "cancel" =>
          (Except.error "workspace creation cancelled by user", s)
      | _ =>
          (Except.error "invalid choice, workspace creation cancelled", s)
    else
      if remoteBranchExists then
        execGit env repo.path (GitCmd.addTrackRemote ws.branch targetPath) s
      else
        execGit env repo.path (GitCmd.addNewBranch ws.branch targetPath) s

/-- `CreateWorktreeForAdd`: the AddRepository-path branch resolution.  Unlike
`createWorktree` it fails up front when the target path already exists, before
issuing any external command.  A stdin read failure defaults the choice to
cancel in the source; that is folded into `env.addChoice`. -/
def CreateWorktreeForAdd (env : Env) (ws : Workspace) (repo : Repository)
    (branch : String) (forceOverwrite : Bool) (s : St) : Except String Unit × St :=
  let targetPath := ws.path ++ [repo.name]
  if pathExists s.fs targetPath then
    (Except.error "target path already exists", s)
  else if branch == "" then
    execGit env repo.path (GitCmd.add targetPath) s
  else
    let branchExists := CheckBranchExists env repo.path branch
    let remoteBranchExists := CheckRemoteBranchExists env repo.path branch
    if branchExists then
      if forceOverwrite then
        if remoteBranchExists then
          execGit env repo.path (GitCmd.addForceResetRemote branch targetPath) s
        else
          execGit env repo.path (GitCmd.addForceReset branch targetPath) s
      else
        match env.addChoice.toLower with
        | "o" | "overwrite" =>
            if remoteBranchExists then
              execGit env repo.path (GitCmd.addForceResetRemote branch targetPath) s
            else
              execGit env repo.path (GitCmd.addForceReset branch targetPath) s
        | "u" | "use" =>
            execGit env repo.path (GitCmd.addExisting targetPath branch) s
        | "c" | "cancel" =>
            (Except.error "operation cancelled by user", s)
        | _ =>
            (Except.error "invalid choice, operation cancelled", s)
    else
      if remoteBranchExists then
        execGit env repo.path (GitCmd.addTrackRemote branch targetPath) s
      else
        execGit env repo.path (GitCmd.addNewBranch branch targetPath) s

/-- One step of `rollbackWorktrees`: forced removal of a recorded worktree;
a failure is logged as a warning and swallowed. -/
def rollbackOne (env : Env) (w : WorktreeInfo) (s : St) : St :=
  match execGit env w.repository.path (GitCmd.remove w.targetPath true) s with
  | (Except.ok _, s') => s'
  | (Except.error _, s') =>
      { s' with trace := s'.trace ++
          [Event.warn ("failed to remove worktree during rollback: " ++ w.repository.name)] }

/-- `rollbackWorktrees`: replay forced teardown over the recorded entries in
reverse order of recording, continuing past individual failures. -/
def rollbackWorktrees (env : Env) (worktrees : List WorktreeInfo) (s : St) : St :=
  worktrees.reverse.foldl (fun st w => rollbackOne env w st) s

/-- The incidental files `cleanupWorkspaceDirectory` tolerates in the root. -/
def expectedCleanupFiles : List String := ["go.work", "AGENT.md", ".gitignore"]

/-- `cleanupWorkspaceDirectory`: remove the workspace root after rollback when
it is empty or holds only incidental files; otherwise leave it intact. -/
def cleanupWorkspaceDirectory (wsPath : Path) (s : St) : St :=
  if wsPath == [] then s
  else if !(pathExists s.fs wsPath) then s
  else
    let entries := dirEntries s.fs wsPath
    let isEmpty := entries.isEmpty
    let onlyExpectedFiles := entries.all (fun n => expectedCleanupFiles.contains n)
    if isEmpty || onlyExpectedFiles then
      { s with fs := fsRemoveAll s.fs wsPath }
    else s

/-- `CreateGoWorkspace`: write the go.work descriptor at the workspace root.
The descriptor's text lists each member that has a `go.mod`; the model
filesystem records existence only, so just the write is modelled. -/
def CreateGoWorkspace (env : Env) (ws : Workspace) (s : St) :
    Except String Unit × St :=
  let goWorkPath := ws.path ++ ["go.work"]
  if env.goWorkWriteOk goWorkPath then
    (Except.ok (), { s with fs := fsInsert s.fs goWorkPath })
  else
    (Except.error "failed to write go.work file", s)

/-- `copyAgentMD`: read the agent source file and write it into the workspace
root as AGENT.md (the `~` expansion of the source string is not observable
here). -/
def copyAgentMD (env : Env) (ws : Workspace) (s : St) : Except String Unit × St :=
  let target := ws.path ++ ["AGENT.md"]
  if !(env.agentReadOk ws.agentMD) then
    (Except.error "failed to read source file", s)
  else if env.agentWriteOk target then
    (Except.ok (), { s with fs := fsInsert s.fs target })
  else
    (Except.error "failed to write target file", s)

/-- `SaveWorkspace`: persist the workspace record under its name (keyed store,
overwriting any previous record of the same name). -/
def SaveWorkspace (env : Env) (ws : Workspace) (s : St) : Except String Unit × St :=
  if env.saveOk ws.name then
    (Except.ok (), { s with
        records := (ws.name, ws) :: s.records.filter (fun r => r.1 ≠ ws.name),
        trace := s.trace ++ [Event.persist ws.name] })
  else
    (Except.error "failed to write workspace configuration", s)

/-- `LoadWorkspace`: look a workspace record up by name. -/
def LoadWorkspace (name : String) (s : St) : Except String Workspace :=
  match s.records.find? (fun r => r.1 == name) with
  | none => Except.error ("workspace not found: " ++ name)
  | some r => Except.ok r.2

/-- Registry lookup as performed through the Go map built in
`FindRepositories`: the map is filled by iterating the registry slice, so a
later entry with the same name overwrites an earlier one (last wins). -/
def repoLookup (registry : List Repository) (name : String) : Option Repository :=
  registry.reverse.find? (fun r => r.name == name)

/-- `FindRepositories`: resolve the requested names against the registry,
collecting the resolved snapshots in request order and every unresolved name;
fail listing all unresolved names at once. -/
def FindRepositories (registry : List Repository) (repoNames : List String) :
    Except String (List Repository) :=
  let results := repoNames.map (fun n => (n, repoLookup registry n))
  let repos := results.filterMap (fun p => p.2)
  let notFound := results.filterMap
    (fun p => match p.2 with | none => some p.1 | some _ => none)
  if notFound.length > 0 then
    Except.error ("repositories not found: " ++ String.intercalate ", " notFound)
  else
    Except.ok repos

/-- `shouldCreateGoWorkspace`: true when any member repository carries the
"go" category. -/
def shouldCreateGoWorkspace (repos : List Repository) : Bool :=
  repos.any (fun r => r.categories.contains "go")

/-- The `WorkspaceManager` fields the lifecycle engine reads. -/
structure WorkspaceManager where
  workspaceDir : Path
  registry : List Repository

/-- The per-repository loop of `createWorkspaceStructure`: materialize each
repository in listed order, accumulating the successfully created worktrees;
on the first failure, roll the accumulated worktrees back, clean the workspace
root up, and fail with the wrapped cause. -/
def createWorktreesLoop (env : Env) (ws : Workspace) :
    List Repository → List WorktreeInfo → St →
    Except String (List WorktreeInfo) × St
  | [], created, s => (Except.ok created, s)
  | repo :: rest, created, s =>
      let info : WorktreeInfo :=
        { repository := repo, targetPath := ws.path ++ [repo.name], branch := ws.branch }
      match createWorktree env ws repo s with
      | (Except.error e, s') =>
          let s'' := cleanupWorkspaceDirectory ws.path (rollbackWorktrees env created s')
          (Except.error ("failed to create worktree for " ++ repo.name ++ ": " ++ e), s'')
      | (Except.ok _, s') =>
          createWorktreesLoop env ws rest (created ++ [info]) s'

/-- `createWorkspaceStructure`: make the workspace root, materialize every
member worktree, then generate the go.work descriptor and copy the agent file
when applicable — a failure in either of those two later steps also triggers
full rollback and root cleanup. -/
def createWorkspaceStructure (env : Env) (ws : Workspace) (s : St) :
    Except String Unit × St :=
  if !(env.mkdirOk ws.path) then
    (Except.error "failed to create workspace directory", s)
  else
    let s₀ : St := { s with fs := fsMkdirAll s.fs ws.path }
    match createWorktreesLoop env ws ws.repositories [] s₀ with
    | (Except.error e, s₁) => (Except.error e, s₁)
    | (Except.ok created, s₁) =>
        match (if ws.goWorkspace then CreateGoWorkspace env ws s₁ else (Except.ok (), s₁)) with
        | (Except.error e, s₂) =>
            (Except.error ("failed to create go.work file: " ++ e),
             cleanupWorkspaceDirectory ws.path (rollbackWorktrees env created s₂))
        | (Except.ok _, s₂) =>
            match (if ws.agentMD ≠ "" then copyAgentMD env ws s₂ else (Except.ok (), s₂)) with
            | (Except.error e, s₃) =>
                (Except.error ("failed to copy AGENT.md: " ++ e),
                 cleanupWorkspaceDirectory ws.path (rollbackWorktrees env created s₃))
            | (Except.ok _, s₃) => (Except.ok (), s₃)

/-- `CreateWorkspace`: validate the name, resolve the member repositories,
build the workspace value; return it unexecuted on dry-run, otherwise create
the structure and persist the record. -/
def CreateWorkspace (wm : WorkspaceManager) (env : Env) (name : String)
    (repoNames : List String) (branch : String) (agentSource : String)
    (dryRun : Bool) (s : St) : Except String Workspace × St :=
  if name == "" then
    (Except.error "workspace name is required", s)
  else
    match FindRepositories wm.registry repoNames with
    | Except.error e => (Except.error ("failed to find repositories: " ++ e), s)
    | Except.ok repos =>
        let workspacePath := wm.workspaceDir ++ [name]
        let workspace : Workspace :=
          { name := name, path := workspacePath, repositories := repos,
            branch := branch, created := env.now,
            goWorkspace := shouldCreateGoWorkspace repos, agentMD := agentSource }
        if dryRun then
          (Except.ok workspace, s)
        else
          match createWorkspaceStructure env workspace s with
          | (Except.error e, s') =>
              (Except.error ("failed to create workspace structure: " ++ e), s')
          | (Except.ok _, s') =>
              match SaveWorkspace env workspace s' with
              | (Except.error e, s'') =>
                  (Except.error ("failed to save workspace configuration: " ++ e), s'')
              | (Except.ok _, s'') => (Except.ok workspace, s'')

/-- The debug loops of `removeWorktrees`: run `git worktree list` in every
member repository (output only; errors are printed and ignored). -/
def listWorktreesAll (env : Env) (repos : List Repository) (s : St) : St :=
  repos.foldl (fun st repo => (execGit env repo.path GitCmd.list st).2) s

/-- One iteration of the removal loop of `removeWorktrees`: skip an absent
worktree path, otherwise run `git worktree remove [--force]`, collecting a
failure message instead of aborting. -/
def removeWorktreesStep (env : Env) (ws : Workspace) (force : Bool)
    (acc : List String × St) (repo : Repository) : List String × St :=
  let errs := acc.1
  let st := acc.2
  let worktreePath := ws.path ++ [repo.name]
  if !(pathExists st.fs worktreePath) then (errs, st)
  else
    match execGit env repo.path (GitCmd.remove worktreePath force) st with
    | (Except.error e, st') =>
        (errs ++ ["failed to remove worktree for " ++ repo.name ++ ": " ++ e], st')
    | (Except.ok _, st') => (errs, st')

/-- `removeWorktrees`: the best-effort teardown loop of Delete.  Lists each
repository's worktrees for debugging, then attempts removal of every member's
worktree (skipping absent paths), collecting rather than short-circuiting on
individual failures, lists again for verification, and finally aggregates any
collected failures into one error. -/
def removeWorktrees (env : Env) (ws : Workspace) (force : Bool) (s : St) :
    Except String Unit × St :=
  let sa := listWorktreesAll env ws.repositories s
  let res := ws.repositories.foldl (removeWorktreesStep env ws force) ([], sa)
  let sb := listWorktreesAll env ws.repositories res.2
  if res.1.length > 0 then
    (Except.error ("failed to remove some worktrees: " ++ String.intercalate "; " res.1), sb)
  else
    (Except.ok (), sb)

/-- `cleanupWorkspaceSpecificFiles`: delete the workspace-owned files from the
root when the root itself is kept (`os.Remove` is total in the model, so the
warn-and-fail branch of the source never fires here). -/
def cleanupWorkspaceSpecificFiles (wsPath : Path) (s : St) : Except String Unit × St :=
  let files := ["go.work", "go.work.sum", "AGENT.md"]
  (Except.ok (),
   files.foldl (fun st f =>
     let p := wsPath ++ [f]
     if pathExists st.fs p then { st with fs := fsRemove st.fs p } else st) s)

/-- `DeleteWorkspace`: load the workspace, tear every member worktree down
(best-effort), then either remove the root recursively or only the incidental
files, and finally remove the persisted configuration record.  Note the early
return: when `removeWorktrees` reports an aggregate error the function exits
before the record removal is reached. -/
def DeleteWorkspace (env : Env) (name : String) (removeFiles forceWorktrees : Bool)
    (s : St) : Except String Unit × St :=
  match LoadWorkspace name s with
  | Except.error e => (Except.error ("failed to load workspace: " ++ e), s)
  | Except.ok ws =>
      match removeWorktrees env ws forceWorktrees s with
      | (Except.error e, s') => (Except.error ("failed to remove worktrees: " ++ e), s')
      | (Except.ok _, s') =>
          let s₂ :=
            if removeFiles then
              if pathExists s'.fs ws.path then { s' with fs := fsRemoveAll s'.fs ws.path }
              else s'
            else (cleanupWorkspaceSpecificFiles ws.path s').2
          let s₃ : St := { s₂ with records := s₂.records.filter (fun r => r.1 ≠ name) }
          (Except.ok (), s₃)

/-- `AddRepositoryToWorkspace`: load the workspace, refuse duplicate members,
resolve the repository, materialize its worktree, append it to the member
list, regenerate the go.work descriptor best-effort (a failure is logged as a
warning and does not fail the call), and persist the updated record. -/
def AddRepositoryToWorkspace (wm : WorkspaceManager) (env : Env)
    (workspaceName repoName branchName : String) (forceOverwrite : Bool) (s : St) :
    Except String Unit × St :=
  match LoadWorkspace workspaceName s with
  | Except.error e => (Except.error ("failed to load workspace: " ++ e), s)
  | Except.ok workspace =>
      if workspace.repositories.any (fun r => r.name == repoName) then
        (Except.error ("repository '" ++ repoName ++ "' is already in workspace"), s)
      else
        match FindRepositories wm.registry [repoName] with
        | Except.error e => (Except.error ("failed to find repository: " ++ e), s)
        | Except.ok [] => (Except.error ("repository '" ++ repoName ++ "' not found in registry"), s)
        | Except.ok (repo :: _) =>
            let targetBranch := if branchName == "" then workspace.branch else branchName
            match CreateWorktreeForAdd env workspace repo targetBranch forceOverwrite s with
            | (Except.error e, s') =>
                (Except.error ("failed to create worktree for repository: " ++ e), s')
            | (Except.ok _, s') =>
                let workspace' :=
                  { workspace with repositories := workspace.repositories ++ [repo] }
                let s₂ :=
                  if workspace'.goWorkspace then
                    match CreateGoWorkspace env workspace' s' with
                    | (Except.error _, st) =>
                        { st with trace := st.trace ++
                            [Event.warn "failed to update go.work file, but continuing"] }
                    | (Except.ok _, st) => st
                  else s'
                match SaveWorkspace env workspace' s₂ with
                | (Except.error e, s₃) =>
                    (Except.error ("failed to save updated workspace configuration: " ++ e), s₃)
                | (Except.ok _, s₃) => (Except.ok (), s₃)

/-- `removeWorktreeForRepo`: teardown of a single member's worktree.  An
absent target path is a success without any external invocation; otherwise the
current worktrees are listed for debugging, the removal is executed, and on
success the remaining worktrees are listed for verification. -/
def removeWorktreeForRepo (env : Env) (repo : Repository) (worktreePath : Path)
    (force : Bool) (s : St) : Except String Unit × St :=
  if !(pathExists s.fs worktreePath) then
    (Except.ok (), s)
  else
    let s₁ := (execGit env repo.path GitCmd.list s).2
    match execGit env repo.path (GitCmd.remove worktreePath force) s₁ with
    | (Except.error e, s') => (Except.error ("failed to remove worktree: " ++ e), s')
    | (Except.ok _, s') => (Except.ok (), (execGit env repo.path GitCmd.list s').2)

/-- Remove the first repository with the given name from a member list
(the slice-splice `append(repos[:i], repos[i+1:]...)` of the source). -/
def removeFirstByName : List Repository → String → List Repository
  | [], _ => []
  | r :: rs, n => if r.name == n then rs else r :: removeFirstByName rs n

/-- `RemoveRepositoryFromWorkspace`: load the workspace, find the member, tear
its worktree down, optionally delete its directory tree, drop it from the
member list, regenerate the go.work descriptor best-effort, and persist. -/
def RemoveRepositoryFromWorkspace (env : Env) (workspaceName repoName : String)
    (force removeFiles : Bool) (s : St) : Except String Unit × St :=
  match LoadWorkspace workspaceName s with
  | Except.error e => (Except.error ("failed to load workspace: " ++ e), s)
  | Except.ok workspace =>
      match workspace.repositories.find? (fun r => r.name == repoName) with
      | none =>
          (Except.error ("repository '" ++ repoName ++ "' not found in workspace"), s)
      | some targetRepo =>
          let worktreePath := workspace.path ++ [repoName]
          match removeWorktreeForRepo env targetRepo worktreePath force s with
          | (Except.error e, s') =>
              (Except.error ("failed to remove worktree for repository: " ++ e), s')
          | (Except.ok _, s') =>
              let s₂ :=
                if removeFiles then
                  if pathExists s'.fs worktreePath then
                    { s' with fs := fsRemoveAll s'.fs worktreePath }
                  else s'
                else s'
              let workspace' :=
                { workspace with
                    repositories := removeFirstByName workspace.repositories repoName }
              let s₃ :=
                if workspace'.goWorkspace then
                  match CreateGoWorkspace env workspace' s₂ with
                  | (Except.error _, st) =>
                      { st with trace := st.trace ++
                          [Event.warn "failed to update go.work file, but continuing"] }
                  | (Except.ok _, st) => st
                else s₂
              match SaveWorkspace env workspace' s₃ with
              | (Except.error e, s₄) =>
                  (Except.error ("failed to save updated workspace configuration: " ++ e), s₄)
              | (Except.ok _, s₄) => (Except.ok (), s₄)

/-- Per-repository live status fields (`RepositoryStatus`), as described by the
data model in the spec; the aggregator reads only the two boolean flags. -/
structure RepositoryStatus where
  currentBranch : String
  hasChanges : Bool
  hasConflicts : Bool
  aheadCount : Nat
  behindCount : Nat
  isMerged : Bool
  needsRebase : Bool
deriving DecidableEq

/-- Modelled from the spec: the Status Aggregator's overall-verdict derivation.
`GetWorkspaceStatus` lives in a source file of this repository that is not
present here (only its callers are), so the fold is taken from §4.5 of the
spec: first matching wins — any member with conflicts yields "conflict", else
any member with changes yields "modified", else "clean". -/
def computeOverall (repos : List RepositoryStatus) : String :=
  if repos.any (fun r => r.hasConflicts) then "conflict"
  else if repos.any (fun r => r.hasChanges) then "modified"
  else "clean"

/-! ### Trace projections and basic lemmas -/

/-- Keep only the external git invocations of a trace. -/
def gitEvents (tr : List Event) : List Event :=
  tr.filter (fun e => match e with | Event.git _ _ => true | _ => false)

/-- Keep only the persist events of a trace. -/
def persistEvents (tr : List Event) : List Event :=
  tr.filter (fun e => match e with | Event.persist _ => true | _ => false)

/-- Keep only the external `git worktree remove` invocations of a trace. -/
def removeEvents (tr : List Event) : List Event :=
  tr.filter (fun e =>
    match e with | Event.git _ (GitCmd.remove _ _) => true | _ => false)

/-! ### Concrete fixtures used to evaluate the code on specific inputs -/

/-- Fixture repository "A", whose primary clone lives at directory key "ra". -/
def rA : Repository :=
  { name := "A", path := "ra", currentBranch := "main", categories := [] }

/-- Fixture repository "B", whose primary clone lives at directory key "rb". -/
def rB : Repository :=
  { name := "B", path := "rb", currentBranch := "main", categories := [] }

/-- Fixture repository "G", carrying the "go" category so that workspaces
holding it maintain a go.work descriptor. -/
def rG : Repository :=
  { name := "G", path := "rg", currentBranch := "main", categories := ["go"] }

/-- A fully permissive environment: every external command succeeds, no branch
exists anywhere, the interactive answers are "use as is". -/
def env0 : Env :=
  { localBranchExists := fun _ _ => false
    remoteBranchExists := fun _ _ => false
    gitAddOk := fun _ _ => true
    gitRemoveOk := fun _ _ _ => true
    createChoice := "use"
    addChoice := "u"
    mkdirOk := fun _ => true
    goWorkWriteOk := fun _ => true
    agentReadOk := fun _ => true
    agentWriteOk := fun _ => true
    saveOk := fun _ => true
    now := 0 }

/-- Fixture workspace holding repositories A and B at root `w/ws1`. -/
def wsAB : Workspace :=
  { name := "ws1", path := ["w", "ws1"], repositories := [rA, rB],
    branch := "feat", created := 0, goWorkspace := false, agentMD := "" }

/-- A clean per-repository status. -/
def stClean : RepositoryStatus :=
  { currentBranch := "main", hasChanges := false, hasConflicts := false,
    aheadCount := 0, behindCount := 0, isMerged := false, needsRebase := false }

/-- A status with uncommitted changes. -/
def stModified : RepositoryStatus := { stClean with hasChanges := true }

/-- A status with merge conflicts. -/
def stConflict : RepositoryStatus := { stClean with hasConflicts := true }

/-- The worktree records the create loop builds for a list of repositories. -/
def infosFor (ws : Workspace) (repos : List Repository) : List WorktreeInfo :=
  repos.map (fun r =>
    { repository := r, targetPath := ws.path ++ [r.name], branch := ws.branch })

lemma gitEvents_append (a b : List Event) :
    gitEvents (a ++ b) = gitEvents a ++ gitEvents b := by
  simp [gitEvents]

lemma persistEvents_append (a b : List Event) :
    persistEvents (a ++ b) = persistEvents a ++ persistEvents b := by
  simp [persistEvents]

lemma pathExists_iff {fs : List Path} {p : Path} :
    pathExists fs p = true ↔ p ∈ fs := by
  simp [pathExists, List.contains, List.elem_iff]

lemma execGit_trace (env : Env) (rp : String) (c : GitCmd) (s : St) :
    (execGit env rp c s).2.trace = s.trace ++ [Event.git rp c] := by
  cases c <;> simp only [execGit] <;> first | rfl | (split_ifs <;> rfl)

lemma execGit_records (env : Env) (rp : String) (c : GitCmd) (s : St) :
    (execGit env rp c s).2.records = s.records := by
  cases c <;> simp only [execGit] <;> first | rfl | (split_ifs <;> rfl)

lemma execGit_fs_mem (env : Env) (rp : String) (c : GitCmd) (s : St) (p : Path)
    (h : p ∈ (execGit env rp c s).2.fs) : p ∈ s.fs ∨ p = gitCmdTarget c := by
  cases c <;> simp only [execGit, gitCmdTarget] at h ⊢ <;>
    first
      | exact Or.inl h
      | (simp only [fsRemoveAll, fsInsert] at h
         split_ifs at h <;>
           simp only [List.mem_filter, List.mem_cons] at h <;> tauto)

lemma pathLe_refl (p : Path) : pathLe p p = true := by
  induction p with
  | nil => rfl
  | cons a t ih => simp [pathLe, ih]

lemma execGit_remove_fs_mem (env : Env) (rp : String) (t : Path) (f : Bool)
    (s : St) (p : Path)
    (h : p ∈ (execGit env rp (GitCmd.remove t f) s).2.fs) : p ∈ s.fs := by
  simp only [execGit] at h
  split_ifs at h
  · simp only [fsRemoveAll, List.mem_filter] at h
    exact h.1
  · exact h

lemma execGit_remove_target_gone (env : Env) (rp : String) (t : Path) (f : Bool)
    (s : St) (hok : env.gitRemoveOk rp t f = true) :
    t ∉ (execGit env rp (GitCmd.remove t f) s).2.fs := by
  simp only [execGit]
  split_ifs with hc
  · simp [fsRemoveAll, List.mem_filter, pathLe_refl]
  · intro hmem
    have hp : pathExists s.fs t = true := pathExists_iff.mpr hmem
    simp [hp, hok] at hc

lemma execGit_remove_ok_oracle (env : Env) (rp : String) (t : Path) (f : Bool)
    (s : St) (h : (execGit env rp (GitCmd.remove t f) s).1 = Except.ok ()) :
    env.gitRemoveOk rp t f = true := by
  simp only [execGit] at h
  split_ifs at h with hc
  rw [Bool.and_eq_true] at hc
  exact hc.2

lemma rollbackOne_records (env : Env) (w : WorktreeInfo) (s : St) :
    (rollbackOne env w s).records = s.records := by
  have key := execGit_records env w.repository.path (GitCmd.remove w.targetPath true) s
  rcases hex : execGit env w.repository.path (GitCmd.remove w.targetPath true) s with ⟨r, s'⟩
  rw [hex] at key
  cases r <;> simp only [rollbackOne, hex] <;> exact key

lemma rollbackOne_gitEvents (env : Env) (w : WorktreeInfo) (s : St) :
    gitEvents (rollbackOne env w s).trace = gitEvents s.trace ++
      [Event.git w.repository.path (GitCmd.remove w.targetPath true)] := by
  have key := execGit_trace env w.repository.path (GitCmd.remove w.targetPath true) s
  rcases hex : execGit env w.repository.path (GitCmd.remove w.targetPath true) s with ⟨r, s'⟩
  rw [hex] at key
  dsimp only at key
  cases r <;> simp [rollbackOne, hex, gitEvents, key]

lemma rollbackOne_fs_mem (env : Env) (w : WorktreeInfo) (s : St) (p : Path)
    (h : p ∈ (rollbackOne env w s).fs) : p ∈ s.fs := by
  have key := execGit_remove_fs_mem env w.repository.path w.targetPath true s p
  rcases hex : execGit env w.repository.path (GitCmd.remove w.targetPath true) s with ⟨r, s'⟩
  rw [hex] at key
  cases r <;> simp only [rollbackOne, hex] at h <;> exact key h

lemma rollbackOne_target_gone (env : Env) (w : WorktreeInfo) (s : St)
    (hok : env.gitRemoveOk w.repository.path w.targetPath true = true) :
    w.targetPath ∉ (rollbackOne env w s).fs := by
  have key := execGit_remove_target_gone env w.repository.path w.targetPath true s hok
  rcases hex : execGit env w.repository.path (GitCmd.remove w.targetPath true) s with ⟨r, s'⟩
  rw [hex] at key
  cases r <;> simp only [rollbackOne, hex] <;> exact key

lemma rollbackOne_trace_mem (env : Env) (w : WorktreeInfo) (s : St) (e : Event)
    (h : e ∈ s.trace) : e ∈ (rollbackOne env w s).trace := by
  have key := execGit_trace env w.repository.path (GitCmd.remove w.targetPath true) s
  rcases hex : execGit env w.repository.path (GitCmd.remove w.targetPath true) s with ⟨r, s'⟩
  rw [hex] at key
  dsimp only at key
  cases r <;> simp [rollbackOne, hex, key, h]

lemma rollbackOne_warn (env : Env) (w : WorktreeInfo) (s : St)
    (hfail : env.gitRemoveOk w.repository.path w.targetPath true = false) :
    Event.warn ("failed to remove worktree during rollback: " ++ w.repository.name) ∈
      (rollbackOne env w s).trace := by
  have key := execGit_remove_ok_oracle env w.repository.path w.targetPath true s
  rcases hex : execGit env w.repository.path (GitCmd.remove w.targetPath true) s with ⟨r, s'⟩
  rw [hex] at key
  cases r with
  | ok u =>
      exfalso
      cases u
      rw [key rfl] at hfail
      simp at hfail
  | error e => simp [rollbackOne, hex]

lemma rollbackFold_records (env : Env) (l : List WorktreeInfo) (s : St) :
    (l.foldl (fun st w => rollbackOne env w st) s).records = s.records := by
  induction l generalizing s with
  | nil => rfl
  | cons w t ih => rw [List.foldl_cons, ih, rollbackOne_records]

lemma rollbackFold_gitEvents (env : Env) (l : List WorktreeInfo) (s : St) :
    gitEvents ((l.foldl (fun st w => rollbackOne env w st) s).trace) =
      gitEvents s.trace ++
        l.map (fun w => Event.git w.repository.path (GitCmd.remove w.targetPath true)) := by
  induction l generalizing s with
  | nil => simp
  | cons w t ih =>
      rw [List.foldl_cons, ih, rollbackOne_gitEvents]
      simp

lemma rollbackFold_fs_mem (env : Env) (l : List WorktreeInfo) (s : St) (p : Path)
    (h : p ∈ (l.foldl (fun st w => rollbackOne env w st) s).fs) : p ∈ s.fs := by
  induction l generalizing s with
  | nil => exact h
  | cons w t ih =>
      rw [List.foldl_cons] at h
      exact rollbackOne_fs_mem env w s p (ih _ h)

lemma rollbackFold_trace_mem (env : Env) (l : List WorktreeInfo) (s : St) (e : Event)
    (h : e ∈ s.trace) : e ∈ (l.foldl (fun st w => rollbackOne env w st) s).trace := by
  induction l generalizing s with
  | nil => exact h
  | cons w t ih =>
      rw [List.foldl_cons]
      exact ih _ (rollbackOne_trace_mem env w s e h)

lemma rollbackFold_target_gone (env : Env) (l : List WorktreeInfo) (s : St)
    (hok : ∀ w ∈ l, env.gitRemoveOk w.repository.path w.targetPath true = true) :
    ∀ w ∈ l, w.targetPath ∉ (l.foldl (fun st w => rollbackOne env w st) s).fs := by
  induction l generalizing s with
  | nil => intro w hw; cases hw
  | cons a t ih =>
      intro w hw
      rw [List.foldl_cons]
      rcases List.mem_cons.mp hw with h | h
      · subst h
        intro hmem
        exact rollbackOne_target_gone env w s (hok w (List.mem_cons_self w t))
          (rollbackFold_fs_mem env t _ _ hmem)
      · exact ih _ (fun x hx => hok x (List.mem_cons_of_mem a hx)) w h

lemma rollbackFold_warn (env : Env) (l : List WorktreeInfo) (s : St)
    (w : WorktreeInfo) (hw : w ∈ l)
    (hfail : env.gitRemoveOk w.repository.path w.targetPath true = false) :
    Event.warn ("failed to remove worktree during rollback: " ++ w.repository.name) ∈
      (l.foldl (fun st w => rollbackOne env w st) s).trace := by
  induction l generalizing s with
  | nil => cases hw
  | cons a t ih =>
      rw [List.foldl_cons]
      rcases List.mem_cons.mp hw with h | h
      · subst h
        exact rollbackFold_trace_mem env t _ _ (rollbackOne_warn env w s hfail)
      · exact ih _ h

lemma cleanup_records (p : Path) (s : St) :
    (cleanupWorkspaceDirectory p s).records = s.records := by
  simp only [cleanupWorkspaceDirectory]
  split_ifs <;> rfl

lemma cleanup_trace (p : Path) (s : St) :
    (cleanupWorkspaceDirectory p s).trace = s.trace := by
  simp only [cleanupWorkspaceDirectory]
  split_ifs <;> rfl

lemma cleanup_fs_mem (p : Path) (s : St) (q : Path)
    (h : q ∈ (cleanupWorkspaceDirectory p s).fs) : q ∈ s.fs := by
  simp only [cleanupWorkspaceDirectory] at h
  split_ifs at h <;> first | exact h | exact (List.mem_filter.mp h).1

lemma persistEvents_execGit (env : Env) (rp : String) (c : GitCmd) (s : St) :
    persistEvents (execGit env rp c s).2.trace = persistEvents s.trace := by
  rw [execGit_trace]
  simp [persistEvents_append, persistEvents]

lemma rollbackOne_persistEvents (env : Env) (w : WorktreeInfo) (s : St) :
    persistEvents (rollbackOne env w s).trace = persistEvents s.trace := by
  have key := persistEvents_execGit env w.repository.path (GitCmd.remove w.targetPath true) s
  rcases hex : execGit env w.repository.path (GitCmd.remove w.targetPath true) s with ⟨r, s'⟩
  rw [hex] at key
  dsimp only at key
  cases r with
  | ok u =>
      simp only [rollbackOne, hex]
      exact key
  | error e =>
      simp only [rollbackOne, hex]
      rw [persistEvents_append, key]
      simp [persistEvents]

lemma rollbackFold_persistEvents (env : Env) (l : List WorktreeInfo) (s : St) :
    persistEvents ((l.foldl (fun st w => rollbackOne env w st) s).trace) =
      persistEvents s.trace := by
  induction l generalizing s with
  | nil => rfl
  | cons w t ih => rw [List.foldl_cons, ih, rollbackOne_persistEvents]

lemma rollbackWorktrees_records (env : Env) (l : List WorktreeInfo) (s : St) :
    (rollbackWorktrees env l s).records = s.records :=
  rollbackFold_records env l.reverse s

lemma rollbackWorktrees_persistEvents (env : Env) (l : List WorktreeInfo) (s : St) :
    persistEvents (rollbackWorktrees env l s).trace = persistEvents s.trace :=
  rollbackFold_persistEvents env l.reverse s

lemma rollbackWorktrees_gitEvents (env : Env) (l : List WorktreeInfo) (s : St) :
    gitEvents (rollbackWorktrees env l s).trace = gitEvents s.trace ++
      l.reverse.map (fun w => Event.git w.repository.path (GitCmd.remove w.targetPath true)) :=
  rollbackFold_gitEvents env l.reverse s

lemma rollbackWorktrees_fs_mem (env : Env) (l : List WorktreeInfo) (s : St)
    (p : Path) (h : p ∈ (rollbackWorktrees env l s).fs) : p ∈ s.fs :=
  rollbackFold_fs_mem env l.reverse s p h

lemma rollbackWorktrees_target_gone (env : Env) (l : List WorktreeInfo) (s : St)
    (hok : ∀ w ∈ l, env.gitRemoveOk w.repository.path w.targetPath true = true) :
    ∀ w ∈ l, w.targetPath ∉ (rollbackWorktrees env l s).fs := by
  intro w hw
  exact rollbackFold_target_gone env l.reverse s
    (fun x hx => hok x (List.mem_reverse.mp hx)) w (List.mem_reverse.mpr hw)

lemma rollbackWorktrees_warn (env : Env) (l : List WorktreeInfo) (s : St)
    (w : WorktreeInfo) (hw : w ∈ l)
    (hfail : env.gitRemoveOk w.repository.path w.targetPath true = false) :
    Event.warn ("failed to remove worktree during rollback: " ++ w.repository.name) ∈
      (rollbackWorktrees env l s).trace :=
  rollbackFold_warn env l.reverse s w (List.mem_reverse.mpr hw) hfail

lemma createWorktree_records (env : Env) (ws : Workspace) (repo : Repository)
    (s : St) : (createWorktree env ws repo s).2.records = s.records := by
  simp only [createWorktree]
  split_ifs <;>
    first
      | rfl
      | apply execGit_records
      | (split <;> first | rfl | apply execGit_records)

lemma createWorktree_persistEvents (env : Env) (ws : Workspace)
    (repo : Repository) (s : St) :
    persistEvents (createWorktree env ws repo s).2.trace = persistEvents s.trace := by
  simp only [createWorktree]
  split_ifs <;>
    first
      | rfl
      | apply persistEvents_execGit
      | (split <;> first | rfl | apply persistEvents_execGit)

lemma goWork_records (env : Env) (ws : Workspace) (s : St) :
    (CreateGoWorkspace env ws s).2.records = s.records := by
  simp only [CreateGoWorkspace]
  split_ifs <;> rfl

lemma goWork_trace (env : Env) (ws : Workspace) (s : St) :
    (CreateGoWorkspace env ws s).2.trace = s.trace := by
  simp only [CreateGoWorkspace]
  split_ifs <;> rfl

lemma copyAgentMD_records (env : Env) (ws : Workspace) (s : St) :
    (copyAgentMD env ws s).2.records = s.records := by
  simp only [copyAgentMD]
  split_ifs <;> rfl

lemma copyAgentMD_trace (env : Env) (ws : Workspace) (s : St) :
    (copyAgentMD env ws s).2.trace = s.trace := by
  simp only [copyAgentMD]
  split_ifs <;> rfl

lemma infosFor_cons (ws : Workspace) (r : Repository) (t : List Repository) :
    infosFor ws (r :: t) =
      ({ repository := r, targetPath := ws.path ++ [r.name], branch := ws.branch } :
        WorktreeInfo) :: infosFor ws t := rfl

lemma loop_records (env : Env) (ws : Workspace) :
    ∀ (repos : List Repository) (created : List WorktreeInfo) (s : St),
      ((createWorktreesLoop env ws repos created s).2).records = s.records := by
  intro repos
  induction repos with
  | nil => intro created s; rfl
  | cons repo rest ih =>
      intro created s
      have hr := createWorktree_records env ws repo s
      rcases hex : createWorktree env ws repo s with ⟨r, s'⟩
      rw [hex] at hr
      dsimp only at hr
      cases r with
      | ok u =>
          simp only [createWorktreesLoop, hex]
          rw [ih, hr]
      | error e =>
          simp only [createWorktreesLoop, hex]
          rw [cleanup_records, rollbackWorktrees_records, hr]

lemma loop_persistEvents (env : Env) (ws : Workspace) :
    ∀ (repos : List Repository) (created : List WorktreeInfo) (s : St),
      persistEvents ((createWorktreesLoop env ws repos created s).2).trace =
        persistEvents s.trace := by
  intro repos
  induction repos with
  | nil => intro created s; rfl
  | cons repo rest ih =>
      intro created s
      have hr := createWorktree_persistEvents env ws repo s
      rcases hex : createWorktree env ws repo s with ⟨r, s'⟩
      rw [hex] at hr
      dsimp only at hr
      cases r with
      | ok u =>
          simp only [createWorktreesLoop, hex]
          rw [ih, hr]
      | error e =>
          simp only [createWorktreesLoop, hex]
          rw [cleanup_trace, rollbackWorktrees_persistEvents, hr]

lemma loop_ok_created (env : Env) (ws : Workspace) :
    ∀ (repos : List Repository) (created cs : List WorktreeInfo) (s s' : St),
      createWorktreesLoop env ws repos created s = (Except.ok cs, s') →
      cs = created ++ infosFor ws repos := by
  intro repos
  induction repos with
  | nil =>
      intro created cs s s' h
      simp only [createWorktreesLoop] at h
      cases h
      simp [infosFor]
  | cons repo rest ih =>
      intro created cs s s' h
      rcases hex : createWorktree env ws repo s with ⟨r, s₀⟩
      cases r with
      | ok u =>
          simp only [createWorktreesLoop, hex] at h
          have := ih _ _ _ _ h
          rw [this, infosFor_cons]
          simp
      | error e =>
          simp only [createWorktreesLoop, hex] at h
          cases h

lemma loop_error_shape (env : Env) (ws : Workspace) :
    ∀ (repos : List Repository) (created : List WorktreeInfo) (s : St)
      (e : String) (s' : St),
      createWorktreesLoop env ws repos created s = (Except.error e, s') →
      ∃ pre r rest s₁ e' s₂,
        repos = pre ++ r :: rest ∧
        createWorktreesLoop env ws pre created s =
          (Except.ok (created ++ infosFor ws pre), s₁) ∧
        createWorktree env ws r s₁ = (Except.error e', s₂) ∧
        e = "failed to create worktree for " ++ r.name ++ ": " ++ e' ∧
        s' = cleanupWorkspaceDirectory ws.path
               (rollbackWorktrees env (created ++ infosFor ws pre) s₂) := by
  intro repos
  induction repos with
  | nil =>
      intro created s e s' h
      simp only [createWorktreesLoop] at h
      cases h
  | cons repo rest ih =>
      intro created s e s' h
      rcases hex : createWorktree env ws repo s with ⟨r, s₀⟩
      cases r with
      | error e0 =>
          simp only [createWorktreesLoop, hex] at h
          obtain ⟨he, hs⟩ := Prod.mk.injEq .. ▸ h
          refine ⟨[], repo, rest, s, e0, s₀, rfl, ?_, hex, ?_, ?_⟩
          · simp [createWorktreesLoop, infosFor]
          · exact (Except.error.injEq .. ▸ he).symm
          · rw [← hs]
            simp [infosFor]
      | ok u =>
          simp only [createWorktreesLoop, hex] at h
          obtain ⟨pre, rr, rest', s₁, e', s₂, hsplit, hpre, hfail, he, hs⟩ :=
            ih _ _ _ _ h
          refine ⟨repo :: pre, rr, rest', s₁, e', s₂, by rw [hsplit]; rfl, ?_, hfail, he, ?_⟩
          · simp only [createWorktreesLoop, hex]
            rw [hpre, infosFor_cons]
            simp
          · rw [hs, infosFor_cons]
            simp

/-- Running the per-repository loop on a split list first runs the initial
segment; only when that segment fully succeeds does the loop continue on the
remainder, from the accumulated worktree list and state. -/
lemma loop_append (env : Env) (ws : Workspace) :
    ∀ (xs ys : List Repository) (created : List WorktreeInfo) (s : St),
      createWorktreesLoop env ws (xs ++ ys) created s =
        (match createWorktreesLoop env ws xs created s with
         | (Except.ok created', s') => createWorktreesLoop env ws ys created' s'
         | (Except.error e, s') => (Except.error e, s')) := by
  intro xs
  induction xs with
  | nil => intro ys created s; rfl
  | cons x t ih =>
      intro ys created s
      rcases hex : createWorktree env ws x s with ⟨r, s'⟩
      cases r with
      | ok u =>
          simp only [List.cons_append, createWorktreesLoop, hex]
          exact ih ys _ s'
      | error e =>
          simp only [List.cons_append, createWorktreesLoop, hex]

/-- Any failure inside `createWorkspaceStructure` (a worktree materialization,
the go.work generation, or the agent-file copy) leaves the final state equal to
root-cleanup applied after rolling back exactly the worktrees materialized so
far, and neither the failing prefix nor the rollback touches the record store
or emits a persist event. -/
lemma structure_error_shape (env : Env) (ws : Workspace) (s : St) (e : String)
    (s' : St) (hmk : env.mkdirOk ws.path = true)
    (h : createWorkspaceStructure env ws s = (Except.error e, s')) :
    ∃ pre rest s₂,
      ws.repositories = pre ++ rest ∧
      s' = cleanupWorkspaceDirectory ws.path
             (rollbackWorktrees env (infosFor ws pre) s₂) ∧
      s₂.records = s.records ∧
      persistEvents s₂.trace = persistEvents s.trace := by
  simp only [createWorkspaceStructure, hmk, Bool.not_true, Bool.false_eq_true,
    if_false] at h
  rcases hloop : createWorktreesLoop env ws ws.repositories []
      { s with fs := fsMkdirAll s.fs ws.path } with ⟨rl, s₁⟩
  rw [hloop] at h
  have hrec₁ := loop_records env ws ws.repositories []
    { s with fs := fsMkdirAll s.fs ws.path }
  have hper₁ := loop_persistEvents env ws ws.repositories []
    { s with fs := fsMkdirAll s.fs ws.path }
  rw [hloop] at hrec₁ hper₁
  dsimp only at hrec₁ hper₁
  cases rl with
  | error el =>
      obtain ⟨he, hs⟩ := Prod.mk.injEq .. ▸ h
      obtain ⟨pre, r, rest, sₘ, e', s₂, hsplit, hpre, hfail, _, hshape⟩ :=
        loop_error_shape env ws ws.repositories [] _ el s₁ hloop
      have hrecm := loop_records env ws pre []
        { s with fs := fsMkdirAll s.fs ws.path }
      have hperm := loop_persistEvents env ws pre []
        { s with fs := fsMkdirAll s.fs ws.path }
      rw [hpre] at hrecm hperm
      dsimp only at hrecm hperm
      have hrec₂ := createWorktree_records env ws r sₘ
      have hper₂ := createWorktree_persistEvents env ws r sₘ
      rw [hfail] at hrec₂ hper₂
      dsimp only at hrec₂ hper₂
      refine ⟨pre, r :: rest, s₂, hsplit, ?_, ?_, ?_⟩
      · rw [← hs, hshape]
        simp
      · rw [hrec₂, hrecm]
      · rw [hper₂, hperm]
  | ok created =>
      dsimp only at h
      have hcreated : created = infosFor ws ws.repositories := by
        simpa using loop_ok_created env ws ws.repositories [] created _ s₁ hloop
      rcases hgo : (if ws.goWorkspace then CreateGoWorkspace env ws s₁
          else (Except.ok (), s₁)) with ⟨rg, s₂'⟩
      have hrecg : s₂'.records = s₁.records := by
        by_cases hb : ws.goWorkspace = true
        · rw [if_pos hb] at hgo
          have := goWork_records env ws s₁
          rw [hgo] at this
          exact this
        · rw [if_neg hb] at hgo
          cases hgo
          rfl
      have htrg : s₂'.trace = s₁.trace := by
        by_cases hb : ws.goWorkspace = true
        · rw [if_pos hb] at hgo
          have := goWork_trace env ws s₁
          rw [hgo] at this
          exact this
        · rw [if_neg hb] at hgo
          cases hgo
          rfl
      rw [hgo] at h
      cases rg with
      | error eg =>
          obtain ⟨he, hs⟩ := Prod.mk.injEq .. ▸ h
          refine ⟨ws.repositories, [], s₂', by simp, ?_, ?_, ?_⟩
          · rw [← hs, hcreated]
          · rw [hrecg, hrec₁]
          · rw [htrg, hper₁]
      | ok u =>
          dsimp only at h
          rcases hag : (if ws.agentMD ≠ "" then copyAgentMD env ws s₂'
              else (Except.ok (), s₂')) with ⟨ra, s₃'⟩
          have hreca : s₃'.records = s₂'.records := by
            by_cases hb : ws.agentMD ≠ ""
            · rw [if_pos hb] at hag
              have := copyAgentMD_records env ws s₂'
              rw [hag] at this
              exact this
            · rw [if_neg hb] at hag
              cases hag
              rfl
          have htra : s₃'.trace = s₂'.trace := by
            by_cases hb : ws.agentMD ≠ ""
            · rw [if_pos hb] at hag
              have := copyAgentMD_trace env ws s₂'
              rw [hag] at this
              exact this
            · rw [if_neg hb] at hag
              cases hag
              rfl
          rw [hag] at h
          cases ra with
          | error ea =>
              obtain ⟨he, hs⟩ := Prod.mk.injEq .. ▸ h
              refine ⟨ws.repositories, [], s₃', by simp, ?_, ?_, ?_⟩
              · rw [← hs, hcreated]
              · rw [hreca, hrecg, hrec₁]
              · rw [htra, htrg]
                exact hper₁
          | ok v => cases h

lemma pathLe_append_singleton (p : Path) (a b : String) :
    pathLe (p ++ [a]) (p ++ [b]) = (a == b) := by
  induction p with
  | nil => simp [pathLe]
  | cons x t ih => simp [pathLe, ih]

lemma removeEvents_append (a b : List Event) :
    removeEvents (a ++ b) = removeEvents a ++ removeEvents b := by
  simp [removeEvents]

lemma execGit_list_state (env : Env) (rp : String) (s : St) :
    (execGit env rp GitCmd.list s).2 =
      { s with trace := s.trace ++ [Event.git rp GitCmd.list] } := rfl

lemma listWorktreesAll_state (env : Env) (repos : List Repository) (s : St) :
    listWorktreesAll env repos s =
      { s with trace := s.trace ++ repos.map (fun r => Event.git r.path GitCmd.list) } := by
  induction repos generalizing s with
  | nil => simp [listWorktreesAll]
  | cons r t ih =>
      simp only [listWorktreesAll, List.foldl_cons, List.map_cons] at *
      rw [execGit_list_state, ih]
      simp

lemma removeStep_absent (env : Env) (ws : Workspace) (force : Bool)
    (errs : List String) (st : St) (repo : Repository)
    (h : pathExists st.fs (ws.path ++ [repo.name]) = false) :
    removeWorktreesStep env ws force (errs, st) repo = (errs, st) := by
  simp [removeWorktreesStep, h]

lemma removeStep_ok (env : Env) (ws : Workspace) (force : Bool)
    (errs : List String) (st : St) (repo : Repository)
    (h : pathExists st.fs (ws.path ++ [repo.name]) = true)
    (hok : env.gitRemoveOk repo.path (ws.path ++ [repo.name]) force = true) :
    removeWorktreesStep env ws force (errs, st) repo =
      (errs,
       { st with fs := fsRemoveAll st.fs (ws.path ++ [repo.name]),
                 trace := st.trace ++
                   [Event.git repo.path (GitCmd.remove (ws.path ++ [repo.name]) force)] }) := by
  simp [removeWorktreesStep, execGit, h, hok]

lemma removeStep_fail (env : Env) (ws : Workspace) (force : Bool)
    (errs : List String) (st : St) (repo : Repository)
    (h : pathExists st.fs (ws.path ++ [repo.name]) = true)
    (hok : env.gitRemoveOk repo.path (ws.path ++ [repo.name]) force = false) :
    removeWorktreesStep env ws force (errs, st) repo =
      (errs ++ ["failed to remove worktree for " ++ repo.name ++ ": git command failed"],
       { st with trace := st.trace ++
           [Event.git repo.path (GitCmd.remove (ws.path ++ [repo.name]) force)] }) := by
  simp only [removeWorktreesStep, execGit, h, hok]
  simp [pathExists] at h
  simp [h, hok]
  rw [String.append_assoc]
  congr 1

/-- The failure messages the Delete teardown loop collects, one per member
whose forced removal the external tool refuses. -/
def removeFailMsgs (env : Env) (ws : Workspace) (force : Bool)
    (repos : List Repository) : List String :=
  repos.filterMap (fun r =>
    if env.gitRemoveOk r.path (ws.path ++ [r.name]) force then none
    else some ("failed to remove worktree for " ++ r.name ++ ": git command failed"))

/-- Full characterization of the Delete teardown fold over members whose
worktree paths all exist and have pairwise distinct names: every member's
removal is invoked in order regardless of earlier failures, the collected
error list is exactly one message per refused member, the record store is
untouched, and every member whose removal the tool allows ends up gone. -/
lemma removeFold_shape (env : Env) (ws : Workspace) (force : Bool) :
    ∀ (repos : List Repository) (errs : List String) (st : St),
      (∀ r ∈ repos, (ws.path ++ [r.name]) ∈ st.fs) →
      (repos.map (fun r => r.name)).Nodup →
      (repos.foldl (removeWorktreesStep env ws force) (errs, st)).1 =
          errs ++ removeFailMsgs env ws force repos ∧
      (repos.foldl (removeWorktreesStep env ws force) (errs, st)).2.records =
          st.records ∧
      removeEvents (repos.foldl (removeWorktreesStep env ws force) (errs, st)).2.trace =
          removeEvents st.trace ++ repos.map
            (fun r => Event.git r.path (GitCmd.remove (ws.path ++ [r.name]) force)) ∧
      persistEvents (repos.foldl (removeWorktreesStep env ws force) (errs, st)).2.trace =
          persistEvents st.trace ∧
      (∀ q, q ∈ (repos.foldl (removeWorktreesStep env ws force) (errs, st)).2.fs →
          q ∈ st.fs) ∧
      (∀ r ∈ repos, env.gitRemoveOk r.path (ws.path ++ [r.name]) force = true →
          (ws.path ++ [r.name]) ∉
            (repos.foldl (removeWorktreesStep env ws force) (errs, st)).2.fs) := by
  intro repos
  induction repos with
  | nil =>
      intro errs st _ _
      refine ⟨by simp [removeFailMsgs], rfl, by simp, rfl, fun q h => h, ?_⟩
      intro r hr
      cases hr
  | cons r t ih =>
      intro errs st hex hnd
      have hrex : pathExists st.fs (ws.path ++ [r.name]) = true :=
        pathExists_iff.mpr (hex r (List.mem_cons_self r t))
      have hnames : ∀ r' ∈ t, r.name ≠ r'.name := by
        intro r' hr' hcontr
        have : r.name ∈ t.map (fun x => x.name) :=
          List.mem_map.mpr ⟨r', hr', hcontr.symm⟩
        exact (List.nodup_cons.mp hnd).1 this
      have hndt : (t.map (fun x => x.name)).Nodup := (List.nodup_cons.mp hnd).2
      rcases hok : env.gitRemoveOk r.path (ws.path ++ [r.name]) force with _ | _
      · -- removal refused: fs unchanged, message collected
        rw [List.foldl_cons, removeStep_fail env ws force errs st r hrex hok]
        have hex' : ∀ r' ∈ t, (ws.path ++ [r'.name]) ∈
            ({ st with trace := st.trace ++
              [Event.git r.path (GitCmd.remove (ws.path ++ [r.name]) force)] } : St).fs :=
          fun r' hr' => hex r' (List.mem_cons_of_mem r hr')
        obtain ⟨h1, h2, h3, h4, h5, h6⟩ := ih _ _ hex' hndt
        refine ⟨?_, h2, ?_, ?_, ?_, ?_⟩
        · rw [h1]
          simp [removeFailMsgs, hok]
        · rw [h3]
          simp [removeEvents_append, removeEvents]
        · rw [h4]
          simp [persistEvents_append, persistEvents]
        · exact fun q hq => h5 q hq
        · intro r' hr' hok'
          rcases List.mem_cons.mp hr' with hh | hh
          · subst hh
            rw [hok'] at hok
            cases hok
          · exact h6 r' hh hok'
      · -- removal succeeds: the target subtree disappears
        rw [List.foldl_cons, removeStep_ok env ws force errs st r hrex hok]
        have hex' : ∀ r' ∈ t, (ws.path ++ [r'.name]) ∈
            fsRemoveAll st.fs (ws.path ++ [r.name]) := by
          intro r' hr'
          refine List.mem_filter.mpr ⟨hex r' (List.mem_cons_of_mem r hr'), ?_⟩
          rw [Bool.not_eq_true']
          rw [pathLe_append_singleton]
          exact beq_eq_false_iff_ne.mpr (hnames r' hr')
        obtain ⟨h1, h2, h3, h4, h5, h6⟩ := ih errs
          ({ st with
              fs := fsRemoveAll st.fs (ws.path ++ [r.name]),
              trace := st.trace ++
                [Event.git r.path (GitCmd.remove (ws.path ++ [r.name]) force)] })
          hex' hndt
        refine ⟨?_, h2, ?_, ?_, ?_, ?_⟩
        · rw [h1]
          simp [removeFailMsgs, hok]
        · rw [h3]
          simp [removeEvents_append, removeEvents]
        · rw [h4]
          simp [persistEvents_append, persistEvents]
        · intro q hq
          exact (List.mem_filter.mp (h5 q hq)).1
        · intro r' hr' hok'
          rcases List.mem_cons.mp hr' with hh | hh
          · subst hh
            intro hmem
            have := h5 _ hmem
            simp [fsRemoveAll, List.mem_filter, pathLe_refl] at this
          · exact h6 r' hh hok'

lemma removeEvents_listEvents (repos : List Repository) :
    removeEvents (repos.map (fun r => Event.git r.path GitCmd.list)) = [] := by
  simp [removeEvents]

lemma persistEvents_listEvents (repos : List Repository) :
    persistEvents (repos.map (fun r => Event.git r.path GitCmd.list)) = [] := by
  simp [persistEvents]

lemma cleanupFiles_records (wsPath : Path) (s : St) :
    (cleanupWorkspaceSpecificFiles wsPath s).2.records = s.records := by
  simp only [cleanupWorkspaceSpecificFiles]
  generalize ["go.work", "go.work.sum", "AGENT.md"] = files
  induction files generalizing s with
  | nil => rfl
  | cons f t ih =>
      rw [List.foldl_cons]
      split_ifs <;> rw [ih]

lemma cleanupFiles_trace (wsPath : Path) (s : St) :
    (cleanupWorkspaceSpecificFiles wsPath s).2.trace = s.trace := by
  simp only [cleanupWorkspaceSpecificFiles]
  generalize ["go.work", "go.work.sum", "AGENT.md"] = files
  induction files generalizing s with
  | nil => rfl
  | cons f t ih =>
      rw [List.foldl_cons]
      split_ifs <;> rw [ih]

lemma cleanupFiles_fs_mem (wsPath : Path) (s : St) (q : Path)
    (h : q ∈ (cleanupWorkspaceSpecificFiles wsPath s).2.fs) : q ∈ s.fs := by
  simp only [cleanupWorkspaceSpecificFiles] at h
  revert h
  generalize ["go.work", "go.work.sum", "AGENT.md"] = files
  induction files generalizing s with
  | nil => exact fun h => h
  | cons f t ih =>
      intro h
      rw [List.foldl_cons] at h
      by_cases hf : pathExists s.fs (wsPath ++ [f]) = true
      · rw [if_pos hf] at h
        exact List.mem_of_mem_filter (ih _ h)
      · rw [if_neg hf] at h
        exact ih _ h

/-- Characterization of `removeWorktrees` on a workspace whose member worktree
paths all exist and whose member names are pairwise distinct. -/
lemma removeWorktrees_shape (env : Env) (ws : Workspace) (force : Bool) (s : St)
    (hex : ∀ r ∈ ws.repositories, (ws.path ++ [r.name]) ∈ s.fs)
    (hnd : (ws.repositories.map (fun r => r.name)).Nodup) :
    (removeWorktrees env ws force s).1 =
      (if (removeFailMsgs env ws force ws.repositories).length > 0 then
        Except.error ("failed to remove some worktrees: " ++
          String.intercalate "; " (removeFailMsgs env ws force ws.repositories))
      else Except.ok ()) ∧
    (removeWorktrees env ws force s).2.records = s.records ∧
    removeEvents (removeWorktrees env ws force s).2.trace =
      removeEvents s.trace ++ ws.repositories.map
        (fun r => Event.git r.path (GitCmd.remove (ws.path ++ [r.name]) force)) ∧
    persistEvents (removeWorktrees env ws force s).2.trace =
      persistEvents s.trace ∧
    (∀ r ∈ ws.repositories,
      env.gitRemoveOk r.path (ws.path ++ [r.name]) force = true →
      (ws.path ++ [r.name]) ∉ (removeWorktrees env ws force s).2.fs) := by
  have hsa := listWorktreesAll_state env ws.repositories s
  obtain ⟨h1, h2, h3, h4, h5, h6⟩ := removeFold_shape env ws force ws.repositories []
    { s with trace := s.trace ++ ws.repositories.map (fun r => Event.git r.path GitCmd.list) }
    (fun r hr => hex r hr) hnd
  rcases hfold : ws.repositories.foldl (removeWorktreesStep env ws force)
      ([], { s with trace := s.trace ++
        ws.repositories.map (fun r => Event.git r.path GitCmd.list) })
    with ⟨errs, st'⟩
  rw [hfold] at h1 h2 h3 h4 h5 h6
  dsimp only at h1 h2 h3 h4 h5 h6
  rw [List.nil_append] at h1
  have hmain : removeWorktrees env ws force s =
      (if errs.length > 0 then
        Except.error ("failed to remove some worktrees: " ++
          String.intercalate "; " errs)
      else Except.ok (),
       { st' with trace := st'.trace ++
           ws.repositories.map (fun r => Event.git r.path GitCmd.list) }) := by
    simp only [removeWorktrees, hsa, hfold, listWorktreesAll_state]
    split_ifs <;> rfl
  subst h1
  refine ⟨?_, ?_, ?_, ?_, ?_⟩
  · rw [hmain]
  · rw [hmain]
    exact h2
  · rw [hmain]
    dsimp only
    rw [removeEvents_append, removeEvents_listEvents, List.append_nil, h3,
      removeEvents_append, removeEvents_listEvents, List.append_nil]
  · rw [hmain]
    dsimp only
    rw [persistEvents_append, persistEvents_listEvents, List.append_nil, h4,
      persistEvents_append, persistEvents_listEvents, List.append_nil]
  · intro r hr hok
    rw [hmain]
    exact h6 r hr hok

/-- `DeleteWorkspace` behaviour on a loadable workspace whose member worktree
paths all exist and whose names are pairwise distinct: every member teardown
is attempted in order; when any teardown fails, Delete returns the aggregate
error listing one message per failed member and the configuration record is
NOT removed (the early return fires before the record removal is reached);
when every teardown succeeds, Delete succeeds and the record is removed. -/
lemma deleteWorkspace_shape (env : Env) (name : String)
    (removeFiles forceWorktrees : Bool) (s : St) (ws : Workspace)
    (hload : LoadWorkspace name s = Except.ok ws)
    (hex : ∀ r ∈ ws.repositories, (ws.path ++ [r.name]) ∈ s.fs)
    (hnd : (ws.repositories.map (fun r => r.name)).Nodup) :
    removeEvents (DeleteWorkspace env name removeFiles forceWorktrees s).2.trace =
      removeEvents s.trace ++ ws.repositories.map
        (fun r => Event.git r.path (GitCmd.remove (ws.path ++ [r.name]) forceWorktrees)) ∧
    ((removeFailMsgs env ws forceWorktrees ws.repositories).length > 0 →
      (DeleteWorkspace env name removeFiles forceWorktrees s).1 =
        Except.error ("failed to remove worktrees: failed to remove some worktrees: " ++
          String.intercalate "; " (removeFailMsgs env ws forceWorktrees ws.repositories)) ∧
      (DeleteWorkspace env name removeFiles forceWorktrees s).2.records = s.records) ∧
    ((removeFailMsgs env ws forceWorktrees ws.repositories).length = 0 →
      (DeleteWorkspace env name removeFiles forceWorktrees s).1 = Except.ok () ∧
      (DeleteWorkspace env name removeFiles forceWorktrees s).2.records =
        s.records.filter (fun r => r.1 ≠ name)) ∧
    (∀ r ∈ ws.repositories,
      env.gitRemoveOk r.path (ws.path ++ [r.name]) forceWorktrees = true →
      (ws.path ++ [r.name]) ∉
        (DeleteWorkspace env name removeFiles forceWorktrees s).2.fs) := by
  obtain ⟨h1, h2, h3, h4, h6⟩ := removeWorktrees_shape env ws forceWorktrees s hex hnd
  rcases hrw : removeWorktrees env ws forceWorktrees s with ⟨rr, s'⟩
  rw [hrw] at h1 h2 h3 h4 h6
  dsimp only at h1 h2 h3 h4 h6
  by_cases hfail : (removeFailMsgs env ws forceWorktrees ws.repositories).length > 0
  · rw [if_pos hfail] at h1
    subst h1
    have hdel : DeleteWorkspace env name removeFiles forceWorktrees s =
        (Except.error ("failed to remove worktrees: failed to remove some worktrees: " ++
          String.intercalate "; " (removeFailMsgs env ws forceWorktrees ws.repositories)), s') := by
      simp only [DeleteWorkspace, hload, hrw]
      rfl
    refine ⟨?_, ?_, ?_, ?_⟩
    · rw [hdel]
      exact h3
    · intro _
      rw [hdel]
      exact ⟨rfl, h2⟩
    · intro hz
      omega
    · intro r hr hok
      rw [hdel]
      exact h6 r hr hok
  · rw [if_neg hfail] at h1
    subst h1
    have hdel : DeleteWorkspace env name removeFiles forceWorktrees s =
        (Except.ok (),
         { (if removeFiles then
              (if pathExists s'.fs ws.path then
                { s' with fs := fsRemoveAll s'.fs ws.path }
               else s')
            else (cleanupWorkspaceSpecificFiles ws.path s').2) with
           records := (if removeFiles then
              (if pathExists s'.fs ws.path then
                { s' with fs := fsRemoveAll s'.fs ws.path }
               else s')
            else (cleanupWorkspaceSpecificFiles ws.path s').2).records.filter
              (fun r => r.1 ≠ name) }) := by
      simp only [DeleteWorkspace, hload, hrw]
    have hrec₂ : (if removeFiles then
        (if pathExists s'.fs ws.path then
          { s' with fs := fsRemoveAll s'.fs ws.path }
         else s')
        else (cleanupWorkspaceSpecificFiles ws.path s').2).records = s'.records := by
      split_ifs <;> first | rfl | exact cleanupFiles_records ws.path s'
    have htr₂ : (if removeFiles then
        (if pathExists s'.fs ws.path then
          { s' with fs := fsRemoveAll s'.fs ws.path }
         else s')
        else (cleanupWorkspaceSpecificFiles ws.path s').2).trace = s'.trace := by
      split_ifs <;> first | rfl | exact cleanupFiles_trace ws.path s'
    have hfs₂ : ∀ q, q ∈ (if removeFiles then
        (if pathExists s'.fs ws.path then
          { s' with fs := fsRemoveAll s'.fs ws.path }
         else s')
        else (cleanupWorkspaceSpecificFiles ws.path s').2).fs → q ∈ s'.fs := by
      intro q hq
      split_ifs at hq
      · exact (List.mem_filter.mp hq).1
      · exact hq
      · exact cleanupFiles_fs_mem ws.path s' q hq
    refine ⟨?_, ?_, ?_, ?_⟩
    · rw [hdel]
      dsimp only
      rw [htr₂]
      exact h3
    · intro hz
      omega
    · intro _
      rw [hdel]
      exact ⟨rfl, by dsimp only; rw [hrec₂, h2]⟩
    · intro r hr hok
      rw [hdel]
      intro hmem
      exact h6 r hr hok (hfs₂ _ hmem)

lemma filterMap_snd_map (registry : List Repository) (names : List String) :
    (names.map (fun n => (n, repoLookup registry n))).filterMap (fun p => p.2) =
      names.filterMap (fun n => repoLookup registry n) := by
  rw [List.filterMap_map]
  rfl

lemma filterMap_notFound_map (registry : List Repository) (names : List String) :
    (names.map (fun n => (n, repoLookup registry n))).filterMap
        (fun p => match p.2 with | none => some p.1 | some _ => none) =
      names.filter (fun n => (repoLookup registry n).isNone) := by
  rw [List.filterMap_map]
  induction names with
  | nil => rfl
  | cons a t ih =>
      cases hl : repoLookup registry a <;>
        simp [List.filterMap_cons, List.filter_cons, hl, Function.comp, ih]

lemma any_fst_map (l : List RepositoryStatus) :
    (l.map (fun r => (r.hasConflicts, r.hasChanges))).any (fun p => p.1) =
      l.any (fun r => r.hasConflicts) := by
  induction l with
  | nil => rfl
  | cons a t ih => simp [ih]

lemma any_snd_map (l : List RepositoryStatus) :
    (l.map (fun r => (r.hasConflicts, r.hasChanges))).any (fun p => p.2) =
      l.any (fun r => r.hasChanges) := by
  induction l with
  | nil => rfl
  | cons a t ih => simp [ih]

/-! ### Claim theorems -/

/-- C7: Create's repository resolution reports all missing names at once.
When at least one requested name is absent from the registry,
`FindRepositories` fails with an error listing every unresolved name (in
request order), and `CreateWorkspace` then fails immediately with the wrapped
message and an unchanged state (no worktree creation, no persist); when every
name resolves, the returned list holds the registry snapshots in the order the
names were requested. -/
theorem C7_find_repositories_reports_all_missing (wm : WorkspaceManager)
    (env : Env) (name : String) (repoNames : List String)
    (branch agentSource : String) (dryRun : Bool) (s : St) :
    ((∃ n ∈ repoNames, repoLookup wm.registry n = none) →
      FindRepositories wm.registry repoNames =
        Except.error ("repositories not found: " ++ String.intercalate ", "
          (repoNames.filter (fun n => (repoLookup wm.registry n).isNone))) ∧
      (name ≠ "" →
        CreateWorkspace wm env name repoNames branch agentSource dryRun s =
          (Except.error ("failed to find repositories: repositories not found: " ++
            String.intercalate ", "
              (repoNames.filter (fun n => (repoLookup wm.registry n).isNone))), s))) ∧
    ((∀ n ∈ repoNames, (repoLookup wm.registry n).isSome) →
      FindRepositories wm.registry repoNames =
        Except.ok (repoNames.filterMap (fun n => repoLookup wm.registry n))) := by
  have hnf := filterMap_notFound_map wm.registry repoNames
  have hsnd := filterMap_snd_map wm.registry repoNames
  constructor
  · rintro ⟨n, hn, hnone⟩
    have hmem : n ∈ repoNames.filter (fun m => (repoLookup wm.registry m).isNone) :=
      List.mem_filter.mpr ⟨hn, by simp [hnone]⟩
    have hlen : 0 < (repoNames.filter
        (fun m => (repoLookup wm.registry m).isNone)).length :=
      List.length_pos.mpr (List.ne_nil_of_mem hmem)
    have hfind : FindRepositories wm.registry repoNames =
        Except.error ("repositories not found: " ++ String.intercalate ", "
          (repoNames.filter (fun m => (repoLookup wm.registry m).isNone))) := by
      simp only [FindRepositories, hnf]
      rw [if_pos hlen]
    refine ⟨hfind, ?_⟩
    intro hname
    have hb : (name == "") = false := by simp [hname]
    simp only [CreateWorkspace, hb, hfind]
    rfl
  · intro hall
    have hempty : repoNames.filter (fun m => (repoLookup wm.registry m).isNone) = [] := by
      rw [List.filter_eq_nil_iff]
      intro a ha
      have := hall a ha
      simp [Option.isNone_eq_false_iff, Option.isSome_iff_ne_none] at this ⊢
      exact this
    simp only [FindRepositories, hnf, hsnd, hempty]
    simp

/-- C7 witness: a registry holding only repository A, a request for A and two
missing names; the error lists both missing names and Create leaves the state
untouched, while a fully-resolvable request returns the snapshots in request
order. -/
theorem C7_find_repositories_reports_all_missing_witness :
    FindRepositories [rA, rB] ["A", "X", "Y"] =
      Except.error "repositories not found: X, Y" ∧
    CreateWorkspace { workspaceDir := ["w"], registry := [rA, rB] } env0 "ws1"
        ["A", "X", "Y"] "feat" "" false
        { fs := [], records := [], trace := [] } =
      (Except.error "failed to find repositories: repositories not found: X, Y",
       { fs := [], records := [], trace := [] }) ∧
    FindRepositories [rA, rB] ["B", "A"] = Except.ok [rB, rA] := by
  obtain ⟨h1, h2⟩ := C7_find_repositories_reports_all_missing
    { workspaceDir := ["w"], registry := [rA, rB] } env0 "ws1" ["A", "X", "Y"]
    "feat" "" false { fs := [], records := [], trace := [] }
  obtain ⟨ha, hb⟩ := h1 ⟨"X", by decide, by decide⟩
  refine ⟨?_, ?_, ?_⟩
  · rw [ha]
    rfl
  · rw [hb (by decide)]
    rfl
  · have h3 := (C7_find_repositories_reports_all_missing
      { workspaceDir := ["w"], registry := [rA, rB] } env0 "ws1" ["B", "A"]
      "feat" "" false { fs := [], records := [], trace := [] }).2 (by decide)
    rw [h3]
    rfl

/-- C10: dry-run Create has no side effects.  With a non-empty name and fully
resolvable repository names, `CreateWorkspace` with `dryRun = true` returns the
workspace value reflecting the request (name, base-dir-joined path, resolved
repositories in request order, branch) and the state completely unchanged: no
directory creation, no worktree materialization, no persist. -/
theorem C10_dry_run_create_no_side_effects (wm : WorkspaceManager) (env : Env)
    (name : String) (repoNames : List String) (branch agentSource : String)
    (s : St) (repos : List Repository)
    (hname : name ≠ "")
    (hfind : FindRepositories wm.registry repoNames = Except.ok repos) :
    CreateWorkspace wm env name repoNames branch agentSource true s =
      (Except.ok
        { name := name, path := wm.workspaceDir ++ [name], repositories := repos,
          branch := branch, created := env.now,
          goWorkspace := shouldCreateGoWorkspace repos, agentMD := agentSource },
       s) := by
  have hb : (name == "") = false := by simp [hname]
  simp [CreateWorkspace, hb, hfind]

/-- C10 witness: a concrete dry-run call returns the expected workspace value
and the exact input state. -/
theorem C10_dry_run_create_no_side_effects_witness :
    CreateWorkspace { workspaceDir := ["w"], registry := [rA, rB] } env0 "ws1"
        ["A", "B"] "feat" "" true
        { fs := [["w"]], records := [], trace := [] } =
      (Except.ok
        { name := "ws1", path := ["w", "ws1"], repositories := [rA, rB],
          branch := "feat", created := 0, goWorkspace := false, agentMD := "" },
       { fs := [["w"]], records := [], trace := [] }) := by
  have h := C10_dry_run_create_no_side_effects
    { workspaceDir := ["w"], registry := [rA, rB] } env0 "ws1" ["A", "B"]
    "feat" "" { fs := [["w"]], records := [], trace := [] } [rA, rB]
    (by decide) (by rfl)
  rw [h]
  rfl

/-- C5: teardown is idempotent on absent paths.  When the target worktree path
does not exist, `removeWorktreeForRepo` returns success without changing the
state at all (in particular, without invoking any external removal command),
and calling it twice on the same absent path returns success both times. -/
theorem C5_teardown_idempotent_on_absent_path (env : Env) (repo : Repository)
    (p : Path) (force : Bool) (s : St)
    (h : pathExists s.fs p = false) :
    removeWorktreeForRepo env repo p force s = (Except.ok (), s) ∧
    removeWorktreeForRepo env repo p force
        (removeWorktreeForRepo env repo p force s).2 = (Except.ok (), s) := by
  have h1 : removeWorktreeForRepo env repo p force s = (Except.ok (), s) := by
    simp [removeWorktreeForRepo, h]
  refine ⟨h1, ?_⟩
  rw [h1]
  exact h1

/-- C5 witness: removing the absent worktree path `w/ws1/A` twice succeeds both
times with the state untouched. -/
theorem C5_teardown_idempotent_on_absent_path_witness :
    removeWorktreeForRepo env0 rA ["w", "ws1", "A"] false
        { fs := [["w"]], records := [], trace := [] } =
      (Except.ok (), { fs := [["w"]], records := [], trace := [] }) ∧
    removeWorktreeForRepo env0 rA ["w", "ws1", "A"] false
        (removeWorktreeForRepo env0 rA ["w", "ws1", "A"] false
          { fs := [["w"]], records := [], trace := [] }).2 =
      (Except.ok (), { fs := [["w"]], records := [], trace := [] }) :=
  C5_teardown_idempotent_on_absent_path env0 rA ["w", "ws1", "A"] false
    { fs := [["w"]], records := [], trace := [] } (by decide)

/-- C3: rollback unwinds in strict reverse order of recording and is
best-effort.  For any recorded list, the forced-teardown invocations appended
to the trace are exactly the recorded entries in reverse order — independently
of which individual teardowns the external tool refuses, so a failure never
stops the remaining teardowns — and every refused teardown leaves a warning in
the trace. -/
theorem C3_rollback_reverse_order_best_effort (env : Env)
    (worktrees : List WorktreeInfo) (s : St) :
    gitEvents (rollbackWorktrees env worktrees s).trace =
      gitEvents s.trace ++ worktrees.reverse.map
        (fun w => Event.git w.repository.path (GitCmd.remove w.targetPath true)) ∧
    (∀ w ∈ worktrees,
      env.gitRemoveOk w.repository.path w.targetPath true = false →
      Event.warn ("failed to remove worktree during rollback: " ++ w.repository.name) ∈
        (rollbackWorktrees env worktrees s).trace) :=
  ⟨rollbackWorktrees_gitEvents env worktrees s,
   fun w hw hf => rollbackWorktrees_warn env worktrees s w hw hf⟩

/-- C3 witness: with recorded worktrees [A, B] where B's forced removal is
refused, the teardown invocations appear in order [B, A] and a warning about B
is logged. -/
theorem C3_rollback_reverse_order_best_effort_witness :
    gitEvents (rollbackWorktrees
        { env0 with gitRemoveOk := fun rp _ _ => rp != "rb" }
        [{ repository := rA, targetPath := ["w", "ws1", "A"], branch := "feat" },
         { repository := rB, targetPath := ["w", "ws1", "B"], branch := "feat" }]
        { fs := [["w", "ws1", "A"], ["w", "ws1", "B"]], records := [], trace := [] }).trace =
      [Event.git "rb" (GitCmd.remove ["w", "ws1", "B"] true),
       Event.git "ra" (GitCmd.remove ["w", "ws1", "A"] true)] ∧
    Event.warn "failed to remove worktree during rollback: B" ∈
      (rollbackWorktrees
        { env0 with gitRemoveOk := fun rp _ _ => rp != "rb" }
        [{ repository := rA, targetPath := ["w", "ws1", "A"], branch := "feat" },
         { repository := rB, targetPath := ["w", "ws1", "B"], branch := "feat" }]
        { fs := [["w", "ws1", "A"], ["w", "ws1", "B"]], records := [], trace := [] }).trace := by
  obtain ⟨h1, h2⟩ := C3_rollback_reverse_order_best_effort
    { env0 with gitRemoveOk := fun rp _ _ => rp != "rb" }
    [{ repository := rA, targetPath := ["w", "ws1", "A"], branch := "feat" },
     { repository := rB, targetPath := ["w", "ws1", "B"], branch := "feat" }]
    { fs := [["w", "ws1", "A"], ["w", "ws1", "B"]], records := [], trace := [] }
  refine ⟨?_, ?_⟩
  · rw [h1]
    rfl
  · exact h2 { repository := rB, targetPath := ["w", "ws1", "B"], branch := "feat" }
      (by decide) (by rfl)

/-- C8: Status overall verdict priority, modelled from the spec (the
aggregator's source file is not part of this corpus).  The verdict is
"conflict" when any member has conflicts, otherwise "modified" when any member
has changes, otherwise "clean"; it depends only on the two boolean flags, so
ahead/behind counts, merged and rebase-needed flags never influence it. -/
theorem C8_status_overall_verdict (l l' : List RepositoryStatus) :
    ((∃ r ∈ l, r.hasConflicts = true) → computeOverall l = "conflict") ∧
    ((∀ r ∈ l, r.hasConflicts = false) → (∃ r ∈ l, r.hasChanges = true) →
      computeOverall l = "modified") ∧
    ((∀ r ∈ l, r.hasConflicts = false) → (∀ r ∈ l, r.hasChanges = false) →
      computeOverall l = "clean") ∧
    (l.map (fun r => (r.hasConflicts, r.hasChanges)) =
        l'.map (fun r => (r.hasConflicts, r.hasChanges)) →
      computeOverall l = computeOverall l') := by
  refine ⟨?_, ?_, ?_, ?_⟩
  · rintro ⟨r, hr, hc⟩
    have : l.any (fun r => r.hasConflicts) = true :=
      List.any_eq_true.mpr ⟨r, hr, hc⟩
    simp [computeOverall, this]
  · rintro hnc ⟨r, hr, hc⟩
    have h1 : l.any (fun r => r.hasConflicts) = false := by
      rw [List.any_eq_false]
      intro x hx
      simp [hnc x hx]
    have h2 : l.any (fun r => r.hasChanges) = true :=
      List.any_eq_true.mpr ⟨r, hr, hc⟩
    simp [computeOverall, h1, h2]
  · intro hnc hnch
    have h1 : l.any (fun r => r.hasConflicts) = false := by
      rw [List.any_eq_false]
      intro x hx
      simp [hnc x hx]
    have h2 : l.any (fun r => r.hasChanges) = false := by
      rw [List.any_eq_false]
      intro x hx
      simp [hnch x hx]
    simp [computeOverall, h1, h2]
  · intro hmap
    have h1 : l.any (fun r => r.hasConflicts) = l'.any (fun r => r.hasConflicts) := by
      have h := congrArg (fun t : List (Bool × Bool) => t.any (fun p => p.1)) hmap
      dsimp only at h
      rw [any_fst_map, any_fst_map] at h
      exact h
    have h2 : l.any (fun r => r.hasChanges) = l'.any (fun r => r.hasChanges) := by
      have h := congrArg (fun t : List (Bool × Bool) => t.any (fun p => p.2)) hmap
      dsimp only at h
      rw [any_snd_map, any_snd_map] at h
      exact h
    simp [computeOverall, h1, h2]

/-- C8 witness: {conflict, clean} yields "conflict", {modified, clean} yields
"modified", {clean, clean} yields "clean", and inflating ahead/behind/merged/
rebase fields of the conflicted member does not change the verdict. -/
theorem C8_status_overall_verdict_witness :
    computeOverall [stConflict, stClean] = "conflict" ∧
    computeOverall [stModified, stClean] = "modified" ∧
    computeOverall [stClean, stClean] = "clean" ∧
    computeOverall
        [{ stConflict with
            aheadCount := 7, behindCount := 5, isMerged := true, needsRebase := true },
         stClean] =
      computeOverall [stConflict, stClean] := by
  refine ⟨?_, ?_, ?_, ?_⟩
  · exact (C8_status_overall_verdict [stConflict, stClean] []).1
      ⟨stConflict, by decide, by decide⟩
  · exact (C8_status_overall_verdict [stModified, stClean] []).2.1
      (by decide) ⟨stModified, by decide, by decide⟩
  · exact (C8_status_overall_verdict [stClean, stClean] []).2.2.1
      (by decide) (by decide)
  · exact (C8_status_overall_verdict
      [{ stConflict with
          aheadCount := 7, behindCount := 5, isMerged := true, needsRebase := true },
       stClean]
      [stConflict, stClean]).2.2.2 (by decide)

/-- C2: branch resolution follows the decision table.  On the Create path
(`createWorktree`): an empty requested branch checks out from the currently
active branch with no branch creation; a branch existing neither locally nor
remotely gets a new local branch; existing only remotely gets a local tracking
branch at the remote tip; existing locally, policy overwrite force-resets (to
the remote tip when the remote exists), policy use-as-is checks the branch out
unchanged, and policy cancel aborts with no checkout command issued.  The
AddRepository path (`CreateWorktreeForAdd`) resolves identically, with
`forceOverwrite` standing in for an up-front overwrite answer. -/
theorem C2_branch_resolution_table (env : Env) (ws : Workspace)
    (repo : Repository) (s : St) (branch : String) (forceOverwrite : Bool) :
    (ws.branch = "" →
      createWorktree env ws repo s =
        execGit env repo.path (GitCmd.add (ws.path ++ [repo.name])) s) ∧
    (ws.branch ≠ "" →
      env.localBranchExists repo.path ws.branch = false →
      env.remoteBranchExists repo.path ws.branch = false →
      createWorktree env ws repo s =
        execGit env repo.path (GitCmd.addNewBranch ws.branch (ws.path ++ [repo.name])) s) ∧
    (ws.branch ≠ "" →
      env.localBranchExists repo.path ws.branch = false →
      env.remoteBranchExists repo.path ws.branch = true →
      createWorktree env ws repo s =
        execGit env repo.path (GitCmd.addTrackRemote ws.branch (ws.path ++ [repo.name])) s) ∧
    (ws.branch ≠ "" →
      env.localBranchExists repo.path ws.branch = true →
      env.createChoice = "overwrite" →
      createWorktree env ws repo s =
        (if env.remoteBranchExists repo.path ws.branch then
          execGit env repo.path
            (GitCmd.addForceResetRemote ws.branch (ws.path ++ [repo.name])) s
         else
          execGit env repo.path
            (GitCmd.addForceReset ws.branch (ws.path ++ [repo.name])) s)) ∧
    (ws.branch ≠ "" →
      env.localBranchExists repo.path ws.branch = true →
      env.createChoice = "use" →
      createWorktree env ws repo s =
        execGit env repo.path (GitCmd.addExisting (ws.path ++ [repo.name]) ws.branch) s) ∧
    (ws.branch ≠ "" →
      env.localBranchExists repo.path ws.branch = true →
      env.createChoice = "cancel" →
      createWorktree env ws repo s =
        (Except.error "workspace creation cancelled by user", s)) ∧
    (pathExists s.fs (ws.path ++ [repo.name]) = false →
      (branch = "" →
        CreateWorktreeForAdd env ws repo branch forceOverwrite s =
          execGit env repo.path (GitCmd.add (ws.path ++ [repo.name])) s) ∧
      (branch ≠ "" →
        env.localBranchExists repo.path branch = false →
        CreateWorktreeForAdd env ws repo branch forceOverwrite s =
          (if env.remoteBranchExists repo.path branch then
            execGit env repo.path
              (GitCmd.addTrackRemote branch (ws.path ++ [repo.name])) s
           else
            execGit env repo.path
              (GitCmd.addNewBranch branch (ws.path ++ [repo.name])) s)) ∧
      (branch ≠ "" →
        env.localBranchExists repo.path branch = true →
        forceOverwrite = true →
        CreateWorktreeForAdd env ws repo branch forceOverwrite s =
          (if env.remoteBranchExists repo.path branch then
            execGit env repo.path
              (GitCmd.addForceResetRemote branch (ws.path ++ [repo.name])) s
           else
            execGit env repo.path
              (GitCmd.addForceReset branch (ws.path ++ [repo.name])) s)) ∧
      (branch ≠ "" →
        env.localBranchExists repo.path branch = true →
        forceOverwrite = false →
        env.addChoice.toLower = "o" →
        CreateWorktreeForAdd env ws repo branch forceOverwrite s =
          (if env.remoteBranchExists repo.path branch then
            execGit env repo.path
              (GitCmd.addForceResetRemote branch (ws.path ++ [repo.name])) s
           else
            execGit env repo.path
              (GitCmd.addForceReset branch (ws.path ++ [repo.name])) s)) ∧
      (branch ≠ "" →
        env.localBranchExists repo.path branch = true →
        forceOverwrite = false →
        env.addChoice.toLower = "u" →
        CreateWorktreeForAdd env ws repo branch forceOverwrite s =
          execGit env repo.path (GitCmd.addExisting (ws.path ++ [repo.name]) branch) s) ∧
      (branch ≠ "" →
        env.localBranchExists repo.path branch = true →
        forceOverwrite = false →
        env.addChoice.toLower = "c" →
        CreateWorktreeForAdd env ws repo branch forceOverwrite s =
          (Except.error "operation cancelled by user", s))) := by
  refine ⟨?_, ?_, ?_, ?_, ?_, ?_, ?_⟩
  · intro hb
    simp [createWorktree, hb]
  · intro hb hl hr
    simp [createWorktree, CheckBranchExists, CheckRemoteBranchExists, hb, hl, hr]
  · intro hb hl hr
    simp [createWorktree, CheckBranchExists, CheckRemoteBranchExists, hb, hl, hr]
  · intro hb hl hch
    rcases hr : env.remoteBranchExists repo.path ws.branch with _ | _ <;>
      simp [createWorktree, CheckBranchExists, CheckRemoteBranchExists, hb, hl, hch, hr]
  · intro hb hl hch
    simp [createWorktree, CheckBranchExists, CheckRemoteBranchExists, hb, hl, hch]
  · intro hb hl hch
    simp [createWorktree, CheckBranchExists, CheckRemoteBranchExists, hb, hl, hch]
  · intro hp
    refine ⟨?_, ?_, ?_, ?_, ?_, ?_⟩
    · intro hb
      simp [CreateWorktreeForAdd, hp, hb]
    · intro hb hl
      rcases hr : env.remoteBranchExists repo.path branch with _ | _ <;>
        simp [CreateWorktreeForAdd, CheckBranchExists, CheckRemoteBranchExists,
          hp, hb, hl, hr]
    · intro hb hl hf
      rcases hr : env.remoteBranchExists repo.path branch with _ | _ <;>
        simp [CreateWorktreeForAdd, CheckBranchExists, CheckRemoteBranchExists,
          hp, hb, hl, hf, hr]
    · intro hb hl hf hch
      rcases hr : env.remoteBranchExists repo.path branch with _ | _ <;>
        simp [CreateWorktreeForAdd, CheckBranchExists, CheckRemoteBranchExists,
          hp, hb, hl, hf, hch, hr]
    · intro hb hl hf hch
      simp [CreateWorktreeForAdd, CheckBranchExists, CheckRemoteBranchExists,
        hp, hb, hl, hf, hch]
    · intro hb hl hf hch
      simp [CreateWorktreeForAdd, CheckBranchExists, CheckRemoteBranchExists,
        hp, hb, hl, hf, hch]

/-- C2 witness: concrete resolutions — empty branch checks out the current
branch; remote-only creates a tracking branch; an existing local branch with
answer cancel aborts with no state change; the Add path with `forceOverwrite`
force-resets to the remote tip. -/
theorem C2_branch_resolution_table_witness :
    createWorktree env0 { wsAB with branch := "" } rA
        { fs := [], records := [], trace := [] } =
      execGit env0 "ra" (GitCmd.add ["w", "ws1", "A"])
        { fs := [], records := [], trace := [] } ∧
    createWorktree { env0 with remoteBranchExists := fun _ _ => true } wsAB rA
        { fs := [], records := [], trace := [] } =
      execGit { env0 with remoteBranchExists := fun _ _ => true } "ra"
        (GitCmd.addTrackRemote "feat" ["w", "ws1", "A"])
        { fs := [], records := [], trace := [] } ∧
    createWorktree
        { env0 with localBranchExists := fun _ _ => true, createChoice := "cancel" }
        wsAB rA { fs := [], records := [], trace := [] } =
      (Except.error "workspace creation cancelled by user",
       { fs := [], records := [], trace := [] }) ∧
    CreateWorktreeForAdd
        { env0 with localBranchExists := fun _ _ => true,
                    remoteBranchExists := fun _ _ => true }
        wsAB rA "feat" true { fs := [], records := [], trace := [] } =
      execGit
        { env0 with localBranchExists := fun _ _ => true,
                    remoteBranchExists := fun _ _ => true }
        "ra" (GitCmd.addForceResetRemote "feat" ["w", "ws1", "A"])
        { fs := [], records := [], trace := [] } := by
  refine ⟨?_, ?_, ?_, ?_⟩
  · exact (C2_branch_resolution_table env0 { wsAB with branch := "" } rA
      { fs := [], records := [], trace := [] } "" false).1 rfl
  · have h := (C2_branch_resolution_table
      { env0 with remoteBranchExists := fun _ _ => true } wsAB rA
      { fs := [], records := [], trace := [] } "" false).2.2.1
      (by decide) (by rfl) (by rfl)
    exact h
  · exact (C2_branch_resolution_table
      { env0 with localBranchExists := fun _ _ => true, createChoice := "cancel" }
      wsAB rA { fs := [], records := [], trace := [] } "" false).2.2.2.2.2.1
      (by decide) (by rfl) (by rfl)
  · have h := ((C2_branch_resolution_table
      { env0 with localBranchExists := fun _ _ => true,
                  remoteBranchExists := fun _ _ => true }
      wsAB rA { fs := [], records := [], trace := [] } "feat" true).2.2.2.2.2.2
      (by rfl)).2.2.1 (by decide) (by rfl) (by rfl)
    simpa using h

/-- C6 counterexample: on the Create path, with the target checkout path
already present on disk, `createWorktree` does not fail with a path-conflict
error before any external invocation — the external checkout command IS
invoked (it appears in the trace) and the failure surfaced is the external
tool's generic one. -/
theorem C6_counterexample :
    (createWorktree env0 { wsAB with branch := "" } rA
        { fs := [["w", "ws1", "A"]], records := [], trace := [] }).1 =
      Except.error "git command failed" ∧
    (createWorktree env0 { wsAB with branch := "" } rA
        { fs := [["w", "ws1", "A"]], records := [], trace := [] }).2.trace =
      [Event.git "ra" (GitCmd.add ["w", "ws1", "A"])] :=
  ⟨rfl, rfl⟩

/-- C6 amended: the existence pre-check guards only the AddRepository path.
`CreateWorktreeForAdd` fails with the path-conflict error and a completely
unchanged state (hence before any external command) whenever the target path
exists; on the Create path `createWorktree` performs no such pre-check — for
an empty requested branch it invokes the external checkout command, which then
fails on the existing path. -/
theorem C6_path_conflict_precondition_amended (env : Env) (ws : Workspace)
    (repo : Repository) (branch : String) (forceOverwrite : Bool) (s : St)
    (h : pathExists s.fs (ws.path ++ [repo.name]) = true) :
    CreateWorktreeForAdd env ws repo branch forceOverwrite s =
      (Except.error "target path already exists", s) ∧
    (ws.branch = "" →
      createWorktree env ws repo s =
        (Except.error "git command failed",
         { s with trace := s.trace ++
             [Event.git repo.path (GitCmd.add (ws.path ++ [repo.name]))] })) := by
  constructor
  · simp [CreateWorktreeForAdd, h]
  · intro hb
    simp [createWorktree, hb, execGit, gitCmdTarget, h]

/-- C6 amended witness: with `w/ws1/A` already on disk, the Add path fails up
front leaving the state untouched, while the Create path runs the external
command and fails with the git error. -/
theorem C6_path_conflict_precondition_amended_witness :
    CreateWorktreeForAdd env0 wsAB rA "feat" false
        { fs := [["w", "ws1", "A"]], records := [], trace := [] } =
      (Except.error "target path already exists",
       { fs := [["w", "ws1", "A"]], records := [], trace := [] }) ∧
    createWorktree env0 { wsAB with branch := "" } rA
        { fs := [["w", "ws1", "A"]], records := [], trace := [] } =
      (Except.error "git command failed",
       { fs := [["w", "ws1", "A"]], records := [],
         trace := [Event.git "ra" (GitCmd.add ["w", "ws1", "A"])] }) := by
  obtain ⟨h1, h2⟩ := C6_path_conflict_precondition_amended env0 wsAB rA "feat"
    false { fs := [["w", "ws1", "A"]], records := [], trace := [] } (by rfl)
  obtain ⟨h1', h2'⟩ := C6_path_conflict_precondition_amended env0
    { wsAB with branch := "" } rA "feat" false
    { fs := [["w", "ws1", "A"]], records := [], trace := [] } (by rfl)
  exact ⟨h1, (h2' rfl).trans rfl⟩

/-- C9: descriptor regeneration after a successful AddRepository (and after
RemoveRepository) is best-effort.  When the worktree operation succeeds but
writing the go.work descriptor fails, the call still succeeds: a warning is
appended to the trace, the repository list in the persisted record is still
updated (appended for Add, removed for Remove), and the record is persisted
(the persist event and the updated record store both show it). -/
theorem C9_descriptor_regen_best_effort (wm : WorkspaceManager) (env : Env) :
    (∀ (workspaceName repoName branchName : String) (forceOverwrite : Bool)
        (s s' : St) (workspace : Workspace) (repo : Repository),
      LoadWorkspace workspaceName s = Except.ok workspace →
      workspace.repositories.any (fun r => r.name == repoName) = false →
      FindRepositories wm.registry [repoName] = Except.ok [repo] →
      CreateWorktreeForAdd env workspace repo
        (if branchName == "" then workspace.branch else branchName)
        forceOverwrite s = (Except.ok (), s') →
      workspace.goWorkspace = true →
      env.goWorkWriteOk (workspace.path ++ ["go.work"]) = false →
      env.saveOk workspace.name = true →
      AddRepositoryToWorkspace wm env workspaceName repoName branchName
          forceOverwrite s =
        (Except.ok (),
         { fs := s'.fs,
           records := (workspace.name,
              { workspace with repositories := workspace.repositories ++ [repo] }) ::
             s'.records.filter (fun r => r.1 ≠ workspace.name),
           trace := (s'.trace ++
             [Event.warn "failed to update go.work file, but continuing"]) ++
             [Event.persist workspace.name] })) ∧
    (∀ (workspaceName repoName : String) (force : Bool) (s s' : St)
        (workspace : Workspace) (targetRepo : Repository),
      LoadWorkspace workspaceName s = Except.ok workspace →
      workspace.repositories.find? (fun r => r.name == repoName) = some targetRepo →
      removeWorktreeForRepo env targetRepo (workspace.path ++ [repoName]) force s =
        (Except.ok (), s') →
      workspace.goWorkspace = true →
      env.goWorkWriteOk (workspace.path ++ ["go.work"]) = false →
      env.saveOk workspace.name = true →
      RemoveRepositoryFromWorkspace env workspaceName repoName force false s =
        (Except.ok (),
         { fs := s'.fs,
           records := (workspace.name,
              { workspace with repositories :=
                 removeFirstByName workspace.repositories repoName }) ::
             s'.records.filter (fun r => r.1 ≠ workspace.name),
           trace := (s'.trace ++
             [Event.warn "failed to update go.work file, but continuing"]) ++
             [Event.persist workspace.name] })) := by
  constructor
  · intro workspaceName repoName branchName forceOverwrite s s' workspace repo
      hload hmem hfind hct hgo hwr hsave
    simp only [AddRepositoryToWorkspace, hload, hmem, hfind, hct, Bool.false_eq_true,
      if_false, CreateGoWorkspace, SaveWorkspace, hgo, hwr, hsave, if_true]
  · intro workspaceName repoName force s s' workspace targetRepo
      hload hfindmem hrw hgo hwr hsave
    simp only [RemoveRepositoryFromWorkspace, hload, hfindmem, hrw,
      CreateGoWorkspace, SaveWorkspace, hgo, hwr, hsave, if_true, if_false]
    rfl

/-- C9 witness: a concrete Add (and a concrete Remove) of repository B against
a go-enabled workspace whose go.work write is refused: both calls succeed,
log the warning, update the member list, and persist the record. -/
theorem C9_descriptor_regen_best_effort_witness :
    AddRepositoryToWorkspace { workspaceDir := ["w"], registry := [rA, rB] }
        { env0 with goWorkWriteOk := fun _ => false } "ws1" "B" "" false
        { fs := [],
          records := [("ws1", { wsAB with repositories := [rA], goWorkspace := true })],
          trace := [] } =
      (Except.ok (),
       { fs := [["w", "ws1", "B"]],
         records := [("ws1",
           { wsAB with repositories := [rA, rB], goWorkspace := true })],
         trace := [Event.git "rb" (GitCmd.addNewBranch "feat" ["w", "ws1", "B"]),
                   Event.warn "failed to update go.work file, but continuing",
                   Event.persist "ws1"] }) ∧
    RemoveRepositoryFromWorkspace { env0 with goWorkWriteOk := fun _ => false }
        "ws1" "B" false false
        { fs := [["w", "ws1", "B"]],
          records := [("ws1", { wsAB with goWorkspace := true })],
          trace := [] } =
      (Except.ok (),
       { fs := [],
         records := [("ws1",
           { wsAB with repositories := [rA], goWorkspace := true })],
         trace := [Event.git "rb" GitCmd.list,
                   Event.git "rb" (GitCmd.remove ["w", "ws1", "B"] false),
                   Event.git "rb" GitCmd.list,
                   Event.warn "failed to update go.work file, but continuing",
                   Event.persist "ws1"] }) := by
  obtain ⟨ha, hr⟩ := C9_descriptor_regen_best_effort
    { workspaceDir := ["w"], registry := [rA, rB] }
    { env0 with goWorkWriteOk := fun _ => false }
  constructor
  · have h := ha "ws1" "B" "" false
      { fs := [],
        records := [("ws1", { wsAB with repositories := [rA], goWorkspace := true })],
        trace := [] }
      { fs := [["w", "ws1", "B"]],
        records := [("ws1", { wsAB with repositories := [rA], goWorkspace := true })],
        trace := [Event.git "rb" (GitCmd.addNewBranch "feat" ["w", "ws1", "B"])] }
      { wsAB with repositories := [rA], goWorkspace := true } rB
      rfl (by rfl) (by rfl) (by rfl) (by rfl) (by rfl) (by rfl)
    exact h.trans rfl
  · have h := hr "ws1" "B" false
      { fs := [["w", "ws1", "B"]],
        records := [("ws1", { wsAB with goWorkspace := true })],
        trace := [] }
      { fs := [],
        records := [("ws1", { wsAB with goWorkspace := true })],
        trace := [Event.git "rb" GitCmd.list,
                  Event.git "rb" (GitCmd.remove ["w", "ws1", "B"] false),
                  Event.git "rb" GitCmd.list] }
      { wsAB with goWorkspace := true } rB
      rfl (by rfl) (by rfl) (by rfl) (by rfl) (by rfl)
    exact h.trans rfl

/-- C4 counterexample: workspace ws1 holds repositories A and B, A's forced
teardown is refused and B's succeeds.  Delete does attempt both teardowns and
returns the aggregate error naming A, and B's checkout is indeed gone — but,
contrary to the claim, the persisted workspace configuration record is NOT
removed: `DeleteWorkspace` returns at the teardown error before the record
removal is reached, so the record store still holds ws1. -/
theorem C4_counterexample :
    (DeleteWorkspace { env0 with gitRemoveOk := fun rp _ _ => rp != "ra" }
        "ws1" false true
        { fs := [["w", "ws1"], ["w", "ws1", "A"], ["w", "ws1", "B"]],
          records := [("ws1", wsAB)], trace := [] }).1 =
      Except.error ("failed to remove worktrees: failed to remove some " ++
        "worktrees: failed to remove worktree for A: git command failed") ∧
    (DeleteWorkspace { env0 with gitRemoveOk := fun rp _ _ => rp != "ra" }
        "ws1" false true
        { fs := [["w", "ws1"], ["w", "ws1", "A"], ["w", "ws1", "B"]],
          records := [("ws1", wsAB)], trace := [] }).2.records =
      [("ws1", wsAB)] ∧
    pathExists (DeleteWorkspace { env0 with gitRemoveOk := fun rp _ _ => rp != "ra" }
        "ws1" false true
        { fs := [["w", "ws1"], ["w", "ws1", "A"], ["w", "ws1", "B"]],
          records := [("ws1", wsAB)], trace := [] }).2.fs ["w", "ws1", "B"] =
      false :=
  ⟨rfl, rfl, rfl⟩

/-- C4 amended: Delete is best-effort in its teardown loop — every member's
teardown is attempted in listed order regardless of earlier failures, and the
aggregate error carries one message naming each member whose teardown failed —
but the bookkeeping removal is NOT unconditional: when any teardown fails,
Delete returns the aggregate error before reaching the record removal, so the
persisted workspace configuration record survives; the record is removed only
when every teardown succeeds. -/
theorem C4_delete_best_effort_amended (env : Env) (name : String)
    (removeFiles forceWorktrees : Bool) (s : St) (ws : Workspace)
    (hload : LoadWorkspace name s = Except.ok ws)
    (hex : ∀ r ∈ ws.repositories, (ws.path ++ [r.name]) ∈ s.fs)
    (hnd : (ws.repositories.map (fun r => r.name)).Nodup) :
    removeEvents (DeleteWorkspace env name removeFiles forceWorktrees s).2.trace =
      removeEvents s.trace ++ ws.repositories.map
        (fun r => Event.git r.path (GitCmd.remove (ws.path ++ [r.name]) forceWorktrees)) ∧
    ((removeFailMsgs env ws forceWorktrees ws.repositories).length > 0 →
      (DeleteWorkspace env name removeFiles forceWorktrees s).1 =
        Except.error ("failed to remove worktrees: failed to remove some worktrees: " ++
          String.intercalate "; " (removeFailMsgs env ws forceWorktrees ws.repositories)) ∧
      (DeleteWorkspace env name removeFiles forceWorktrees s).2.records = s.records) ∧
    ((removeFailMsgs env ws forceWorktrees ws.repositories).length = 0 →
      (DeleteWorkspace env name removeFiles forceWorktrees s).1 = Except.ok () ∧
      (DeleteWorkspace env name removeFiles forceWorktrees s).2.records =
        s.records.filter (fun r => r.1 ≠ name)) ∧
    (∀ r ∈ ws.repositories,
      env.gitRemoveOk r.path (ws.path ++ [r.name]) forceWorktrees = true →
      (ws.path ++ [r.name]) ∉
        (DeleteWorkspace env name removeFiles forceWorktrees s).2.fs) :=
  deleteWorkspace_shape env name removeFiles forceWorktrees s ws hload hex hnd

/-- C4 amended witness: the concrete A-fails/B-succeeds scenario — both
teardowns attempted in order, the aggregate error names A, the record
survives, and B's checkout is gone; a second all-success scenario removes the
record. -/
theorem C4_delete_best_effort_amended_witness :
    removeEvents (DeleteWorkspace { env0 with gitRemoveOk := fun rp _ _ => rp != "ra" }
        "ws1" false true
        { fs := [["w", "ws1"], ["w", "ws1", "A"], ["w", "ws1", "B"]],
          records := [("ws1", wsAB)], trace := [] }).2.trace =
      [Event.git "ra" (GitCmd.remove ["w", "ws1", "A"] true),
       Event.git "rb" (GitCmd.remove ["w", "ws1", "B"] true)] ∧
    (DeleteWorkspace { env0 with gitRemoveOk := fun rp _ _ => rp != "ra" }
        "ws1" false true
        { fs := [["w", "ws1"], ["w", "ws1", "A"], ["w", "ws1", "B"]],
          records := [("ws1", wsAB)], trace := [] }).1 =
      Except.error ("failed to remove worktrees: failed to remove some worktrees: " ++
        String.intercalate "; " (removeFailMsgs
          { env0 with gitRemoveOk := fun rp _ _ => rp != "ra" } wsAB true
          wsAB.repositories)) ∧
    (DeleteWorkspace { env0 with gitRemoveOk := fun rp _ _ => rp != "ra" }
        "ws1" false true
        { fs := [["w", "ws1"], ["w", "ws1", "A"], ["w", "ws1", "B"]],
          records := [("ws1", wsAB)], trace := [] }).2.records =
      [("ws1", wsAB)] ∧
    ["w", "ws1", "B"] ∉
      (DeleteWorkspace { env0 with gitRemoveOk := fun rp _ _ => rp != "ra" }
        "ws1" false true
        { fs := [["w", "ws1"], ["w", "ws1", "A"], ["w", "ws1", "B"]],
          records := [("ws1", wsAB)], trace := [] }).2.fs ∧
    (DeleteWorkspace env0 "ws1" false true
        { fs := [["w", "ws1"], ["w", "ws1", "A"], ["w", "ws1", "B"]],
          records := [("ws1", wsAB)], trace := [] }).1 = Except.ok () ∧
    (DeleteWorkspace env0 "ws1" false true
        { fs := [["w", "ws1"], ["w", "ws1", "A"], ["w", "ws1", "B"]],
          records := [("ws1", wsAB)], trace := [] }).2.records = [] := by
  obtain ⟨h1, h2, _, h4⟩ := C4_delete_best_effort_amended
    { env0 with gitRemoveOk := fun rp _ _ => rp != "ra" } "ws1" false true
    { fs := [["w", "ws1"], ["w", "ws1", "A"], ["w", "ws1", "B"]],
      records := [("ws1", wsAB)], trace := [] } wsAB rfl (by decide) (by decide)
  obtain ⟨hfail1, hfail2⟩ := h2 (by decide)
  obtain ⟨_, _, h3ok, _⟩ := C4_delete_best_effort_amended env0 "ws1" false true
    { fs := [["w", "ws1"], ["w", "ws1", "A"], ["w", "ws1", "B"]],
      records := [("ws1", wsAB)], trace := [] } wsAB rfl (by decide) (by decide)
  obtain ⟨hok1, hok2⟩ := h3ok (by decide)
  refine ⟨?_, hfail1, hfail2.trans rfl, ?_, hok1, hok2.trans rfl⟩
  · rw [h1]
    rfl
  · exact h4 rB (by decide) (by rfl)

/-- C1: Create is atomic.  With a valid name and resolvable repositories, for
every failure point of `createWorkspaceStructure` the exact final state is
pinned: (1) whenever the per-repository loop materializes exactly the prefix
`pre` and then fails on repository `r` — for any prefix length, any member
count and any cause — (2) whenever every repository materializes and writing
the go.work descriptor is refused, and (3) whenever every repository
materializes, the descriptor step succeeds, and copying the agent file fails,
`CreateWorkspace` returns the wrapped cause and its final state is EXACTLY
root-cleanup applied after rolling back the materialized worktrees; the record
store is unchanged and no persist event is emitted (no Workspace record is
persisted), the forced teardowns appear in the trace in strict reverse
creation order, and whenever the external tool allows those removals every
materialized worktree path is absent from the final filesystem. -/
theorem C1_create_atomicity (wm : WorkspaceManager) (env : Env) (name : String)
    (repoNames : List String) (branch agentSource : String) (s : St)
    (repos : List Repository) (ws : Workspace)
    (hname : name ≠ "")
    (hfind : FindRepositories wm.registry repoNames = Except.ok repos)
    (hws : ws = { name := name, path := wm.workspaceDir ++ [name],
                  repositories := repos, branch := branch, created := env.now,
                  goWorkspace := shouldCreateGoWorkspace repos,
                  agentMD := agentSource })
    (hmk : env.mkdirOk ws.path = true) :
    (∀ (pre rest : List Repository) (r : Repository) (cs : List WorktreeInfo)
        (e₀ : String) (s₁ s₂ : St),
      ws.repositories = pre ++ r :: rest →
      createWorktreesLoop env ws pre []
          { s with fs := fsMkdirAll s.fs ws.path } = (Except.ok cs, s₁) →
      createWorktree env ws r s₁ = (Except.error e₀, s₂) →
      cs = infosFor ws pre ∧
      CreateWorkspace wm env name repoNames branch agentSource false s =
        (Except.error ("failed to create workspace structure: " ++
           ("failed to create worktree for " ++ r.name ++ ": " ++ e₀)),
         cleanupWorkspaceDirectory ws.path
           (rollbackWorktrees env (infosFor ws pre) s₂)) ∧
      (cleanupWorkspaceDirectory ws.path
          (rollbackWorktrees env (infosFor ws pre) s₂)).records = s.records ∧
      persistEvents (cleanupWorkspaceDirectory ws.path
          (rollbackWorktrees env (infosFor ws pre) s₂)).trace =
        persistEvents s.trace ∧
      gitEvents (cleanupWorkspaceDirectory ws.path
          (rollbackWorktrees env (infosFor ws pre) s₂)).trace =
        gitEvents s₂.trace ++ (infosFor ws pre).reverse.map
          (fun w => Event.git w.repository.path (GitCmd.remove w.targetPath true)) ∧
      ((∀ w ∈ infosFor ws pre,
          env.gitRemoveOk w.repository.path w.targetPath true = true) →
        ∀ w ∈ infosFor ws pre,
          w.targetPath ∉ (cleanupWorkspaceDirectory ws.path
            (rollbackWorktrees env (infosFor ws pre) s₂)).fs)) ∧
    (∀ (cs : List WorktreeInfo) (s₁ : St),
      createWorktreesLoop env ws ws.repositories []
          { s with fs := fsMkdirAll s.fs ws.path } = (Except.ok cs, s₁) →
      ws.goWorkspace = true →
      env.goWorkWriteOk (ws.path ++ ["go.work"]) = false →
      cs = infosFor ws ws.repositories ∧
      CreateWorkspace wm env name repoNames branch agentSource false s =
        (Except.error ("failed to create workspace structure: " ++
           ("failed to create go.work file: " ++ "failed to write go.work file")),
         cleanupWorkspaceDirectory ws.path
           (rollbackWorktrees env (infosFor ws ws.repositories) s₁)) ∧
      (cleanupWorkspaceDirectory ws.path
          (rollbackWorktrees env (infosFor ws ws.repositories) s₁)).records =
        s.records ∧
      persistEvents (cleanupWorkspaceDirectory ws.path
          (rollbackWorktrees env (infosFor ws ws.repositories) s₁)).trace =
        persistEvents s.trace ∧
      gitEvents (cleanupWorkspaceDirectory ws.path
          (rollbackWorktrees env (infosFor ws ws.repositories) s₁)).trace =
        gitEvents s₁.trace ++ (infosFor ws ws.repositories).reverse.map
          (fun w => Event.git w.repository.path (GitCmd.remove w.targetPath true)) ∧
      ((∀ w ∈ infosFor ws ws.repositories,
          env.gitRemoveOk w.repository.path w.targetPath true = true) →
        ∀ w ∈ infosFor ws ws.repositories,
          w.targetPath ∉ (cleanupWorkspaceDirectory ws.path
            (rollbackWorktrees env (infosFor ws ws.repositories) s₁)).fs)) ∧
    (∀ (cs : List WorktreeInfo) (s₁ sg sa : St) (ea : String),
      createWorktreesLoop env ws ws.repositories []
          { s with fs := fsMkdirAll s.fs ws.path } = (Except.ok cs, s₁) →
      (if ws.goWorkspace then CreateGoWorkspace env ws s₁
       else (Except.ok (), s₁)) = (Except.ok (), sg) →
      ws.agentMD ≠ "" →
      copyAgentMD env ws sg = (Except.error ea, sa) →
      cs = infosFor ws ws.repositories ∧
      CreateWorkspace wm env name repoNames branch agentSource false s =
        (Except.error ("failed to create workspace structure: " ++
           ("failed to copy AGENT.md: " ++ ea)),
         cleanupWorkspaceDirectory ws.path
           (rollbackWorktrees env (infosFor ws ws.repositories) sa)) ∧
      (cleanupWorkspaceDirectory ws.path
          (rollbackWorktrees env (infosFor ws ws.repositories) sa)).records =
        s.records ∧
      persistEvents (cleanupWorkspaceDirectory ws.path
          (rollbackWorktrees env (infosFor ws ws.repositories) sa)).trace =
        persistEvents s.trace ∧
      gitEvents (cleanupWorkspaceDirectory ws.path
          (rollbackWorktrees env (infosFor ws ws.repositories) sa)).trace =
        gitEvents sa.trace ++ (infosFor ws ws.repositories).reverse.map
          (fun w => Event.git w.repository.path (GitCmd.remove w.targetPath true)) ∧
      ((∀ w ∈ infosFor ws ws.repositories,
          env.gitRemoveOk w.repository.path w.targetPath true = true) →
        ∀ w ∈ infosFor ws ws.repositories,
          w.targetPath ∉ (cleanupWorkspaceDirectory ws.path
            (rollbackWorktrees env (infosFor ws ws.repositories) sa)).fs)) := by
  have hb : (name == "") = false := by simp [hname]
  have hwrap : ∀ (e₁ : String) (sfin : St),
      createWorkspaceStructure env ws s = (Except.error e₁, sfin) →
      CreateWorkspace wm env name repoNames branch agentSource false s =
        (Except.error ("failed to create workspace structure: " ++ e₁), sfin) := by
    intro e₁ sfin hst
    rw [hws] at hst
    simp only [CreateWorkspace, hb, Bool.false_eq_true, if_false, hfind, hst]
  refine ⟨?_, ?_, ?_⟩
  · intro pre rest r cs e₀ s₁ s₂ hsplit hpre hfail
    have hcs : cs = infosFor ws pre := by
      simpa using loop_ok_created env ws pre [] cs
        { s with fs := fsMkdirAll s.fs ws.path } s₁ hpre
    subst hcs
    have hloop : createWorktreesLoop env ws ws.repositories []
        { s with fs := fsMkdirAll s.fs ws.path } =
        (Except.error ("failed to create worktree for " ++ r.name ++ ": " ++ e₀),
         cleanupWorkspaceDirectory ws.path
           (rollbackWorktrees env (infosFor ws pre) s₂)) := by
      rw [hsplit, loop_append, hpre]
      dsimp only
      simp only [createWorktreesLoop, hfail]
    have hstructEq : createWorkspaceStructure env ws s =
        (Except.error ("failed to create worktree for " ++ r.name ++ ": " ++ e₀),
         cleanupWorkspaceDirectory ws.path
           (rollbackWorktrees env (infosFor ws pre) s₂)) := by
      simp only [createWorkspaceStructure, hmk, Bool.not_true, Bool.false_eq_true,
        if_false, hloop]
    have hrecfail := createWorktree_records env ws r s₁
    rw [hfail] at hrecfail
    dsimp only at hrecfail
    have hperfail := createWorktree_persistEvents env ws r s₁
    rw [hfail] at hperfail
    dsimp only at hperfail
    have hrecpre := loop_records env ws pre []
      { s with fs := fsMkdirAll s.fs ws.path }
    rw [hpre] at hrecpre
    dsimp only at hrecpre
    have hperpre := loop_persistEvents env ws pre []
      { s with fs := fsMkdirAll s.fs ws.path }
    rw [hpre] at hperpre
    dsimp only at hperpre
    refine ⟨rfl, hwrap _ _ hstructEq, ?_, ?_, ?_, ?_⟩
    · rw [cleanup_records, rollbackWorktrees_records, hrecfail, hrecpre]
    · rw [cleanup_trace, rollbackWorktrees_persistEvents, hperfail, hperpre]
    · rw [cleanup_trace, rollbackWorktrees_gitEvents]
    · intro hok w hw hmem
      exact rollbackWorktrees_target_gone env (infosFor ws pre) s₂ hok w hw
        (cleanup_fs_mem ws.path _ w.targetPath hmem)
  · intro cs s₁ hloopok hgo hwr
    have hcs : cs = infosFor ws ws.repositories := by
      simpa using loop_ok_created env ws ws.repositories [] cs
        { s with fs := fsMkdirAll s.fs ws.path } s₁ hloopok
    subst hcs
    have hgw : CreateGoWorkspace env ws s₁ =
        (Except.error "failed to write go.work file", s₁) := by
      simp [CreateGoWorkspace, hwr]
    have hstructEq : createWorkspaceStructure env ws s =
        (Except.error ("failed to create go.work file: " ++
           "failed to write go.work file"),
         cleanupWorkspaceDirectory ws.path
           (rollbackWorktrees env (infosFor ws ws.repositories) s₁)) := by
      simp only [createWorkspaceStructure, hmk, Bool.not_true, Bool.false_eq_true,
        if_false]
      rw [hloopok]
      dsimp only
      rw [if_pos hgo, hgw]
    have hrecpre := loop_records env ws ws.repositories []
      { s with fs := fsMkdirAll s.fs ws.path }
    rw [hloopok] at hrecpre
    dsimp only at hrecpre
    have hperpre := loop_persistEvents env ws ws.repositories []
      { s with fs := fsMkdirAll s.fs ws.path }
    rw [hloopok] at hperpre
    dsimp only at hperpre
    refine ⟨rfl, hwrap _ _ hstructEq, ?_, ?_, ?_, ?_⟩
    · rw [cleanup_records, rollbackWorktrees_records, hrecpre]
    · rw [cleanup_trace, rollbackWorktrees_persistEvents, hperpre]
    · rw [cleanup_trace, rollbackWorktrees_gitEvents]
    · intro hok w hw hmem
      exact rollbackWorktrees_target_gone env (infosFor ws ws.repositories) s₁
        hok w hw (cleanup_fs_mem ws.path _ w.targetPath hmem)
  · intro cs s₁ sg sa ea hloopok hgoStep hagmd hacopy
    have hcs : cs = infosFor ws ws.repositories := by
      simpa using loop_ok_created env ws ws.repositories [] cs
        { s with fs := fsMkdirAll s.fs ws.path } s₁ hloopok
    subst hcs
    have hstructEq : createWorkspaceStructure env ws s =
        (Except.error ("failed to copy AGENT.md: " ++ ea),
         cleanupWorkspaceDirectory ws.path
           (rollbackWorktrees env (infosFor ws ws.repositories) sa)) := by
      simp only [createWorkspaceStructure, hmk, Bool.not_true, Bool.false_eq_true,
        if_false]
      rw [hloopok]
      dsimp only
      rw [hgoStep]
      dsimp only
      rw [if_pos hagmd, hacopy]
    have hrecg : sg.records = s₁.records := by
      by_cases hgb : ws.goWorkspace = true
      · rw [if_pos hgb] at hgoStep
        have h := goWork_records env ws s₁
        rw [hgoStep] at h
        exact h
      · rw [if_neg hgb] at hgoStep
        cases hgoStep
        rfl
    have htrg : sg.trace = s₁.trace := by
      by_cases hgb : ws.goWorkspace = true
      · rw [if_pos hgb] at hgoStep
        have h := goWork_trace env ws s₁
        rw [hgoStep] at h
        exact h
      · rw [if_neg hgb] at hgoStep
        cases hgoStep
        rfl
    have hreca : sa.records = sg.records := by
      have h := copyAgentMD_records env ws sg
      rw [hacopy] at h
      exact h
    have htra : sa.trace = sg.trace := by
      have h := copyAgentMD_trace env ws sg
      rw [hacopy] at h
      exact h
    have hrecpre := loop_records env ws ws.repositories []
      { s with fs := fsMkdirAll s.fs ws.path }
    rw [hloopok] at hrecpre
    dsimp only at hrecpre
    have hperpre := loop_persistEvents env ws ws.repositories []
      { s with fs := fsMkdirAll s.fs ws.path }
    rw [hloopok] at hperpre
    dsimp only at hperpre
    refine ⟨rfl, hwrap _ _ hstructEq, ?_, ?_, ?_, ?_⟩
    · rw [cleanup_records, rollbackWorktrees_records, hreca, hrecg, hrecpre]
    · rw [cleanup_trace, rollbackWorktrees_persistEvents, htra, htrg, hperpre]
    · rw [cleanup_trace, rollbackWorktrees_gitEvents]
    · intro hok w hw hmem
      exact rollbackWorktrees_target_gone env (infosFor ws ws.repositories) sa
        hok w hw (cleanup_fs_mem ws.path _ w.targetPath hmem)

/-- C1 witness: all three failure points exercised concretely.  (1) Creating
ws1 over [A, B] where A materializes and B's checkout fails: A's worktree is
rolled back and the root removed.  (2) Creating ws1 over the go-category
repository G with the go.work write refused: G's worktree is rolled back.
(3) Creating ws1 over [A] with an unreadable agent file: A's worktree is
rolled back.  In each case nothing is persisted and only the base directory
survives. -/
theorem C1_create_atomicity_witness :
    CreateWorkspace { workspaceDir := ["w"], registry := [rA, rB] }
        { env0 with gitAddOk := fun rp _ => rp != "rb" } "ws1" ["A", "B"] "" ""
        false { fs := [], records := [], trace := [] } =
      (Except.error ("failed to create workspace structure: " ++
        "failed to create worktree for B: git command failed"),
       { fs := [["w"]], records := [],
         trace := [Event.git "ra" (GitCmd.add ["w", "ws1", "A"]),
                   Event.git "rb" (GitCmd.add ["w", "ws1", "B"]),
                   Event.git "ra" (GitCmd.remove ["w", "ws1", "A"] true)] }) ∧
    CreateWorkspace { workspaceDir := ["w"], registry := [rG] }
        { env0 with goWorkWriteOk := fun _ => false } "ws1" ["G"] "" ""
        false { fs := [], records := [], trace := [] } =
      (Except.error ("failed to create workspace structure: " ++
        "failed to create go.work file: failed to write go.work file"),
       { fs := [["w"]], records := [],
         trace := [Event.git "rg" (GitCmd.add ["w", "ws1", "G"]),
                   Event.git "rg" (GitCmd.remove ["w", "ws1", "G"] true)] }) ∧
    CreateWorkspace { workspaceDir := ["w"], registry := [rA] }
        { env0 with agentReadOk := fun _ => false } "ws1" ["A"] "" "agent.md"
        false { fs := [], records := [], trace := [] } =
      (Except.error ("failed to create workspace structure: " ++
        "failed to copy AGENT.md: failed to read source file"),
       { fs := [["w"]], records := [],
         trace := [Event.git "ra" (GitCmd.add ["w", "ws1", "A"]),
                   Event.git "ra" (GitCmd.remove ["w", "ws1", "A"] true)] }) ∧
    pathExists [["w"]] ["w", "ws1"] = false ∧
    pathExists [["w"]] ["w", "ws1", "A"] = false := by
  obtain ⟨b1, _, _⟩ := C1_create_atomicity
    { workspaceDir := ["w"], registry := [rA, rB] }
    { env0 with gitAddOk := fun rp _ => rp != "rb" } "ws1" ["A", "B"] "" ""
    { fs := [], records := [], trace := [] } [rA, rB]
    { name := "ws1", path := ["w", "ws1"], repositories := [rA, rB],
      branch := "", created := 0, goWorkspace := false, agentMD := "" }
    (by decide) (by rfl) (by rfl) (by rfl)
  obtain ⟨_, b2, _⟩ := C1_create_atomicity
    { workspaceDir := ["w"], registry := [rG] }
    { env0 with goWorkWriteOk := fun _ => false } "ws1" ["G"] "" ""
    { fs := [], records := [], trace := [] } [rG]
    { name := "ws1", path := ["w", "ws1"], repositories := [rG],
      branch := "", created := 0, goWorkspace := true, agentMD := "" }
    (by decide) (by rfl) (by rfl) (by rfl)
  obtain ⟨_, _, b3⟩ := C1_create_atomicity
    { workspaceDir := ["w"], registry := [rA] }
    { env0 with agentReadOk := fun _ => false } "ws1" ["A"] "" "agent.md"
    { fs := [], records := [], trace := [] } [rA]
    { name := "ws1", path := ["w", "ws1"], repositories := [rA],
      branch := "", created := 0, goWorkspace := false, agentMD := "agent.md" }
    (by decide) (by rfl) (by rfl) (by rfl)
  have h1 := b1 [rA] [] rB
    [{ repository := rA, targetPath := ["w", "ws1", "A"], branch := "" }]
    "git command failed"
    { fs := [["w", "ws1", "A"], ["w", "ws1"], ["w"]], records := [],
      trace := [Event.git "ra" (GitCmd.add ["w", "ws1", "A"])] }
    { fs := [["w", "ws1", "A"], ["w", "ws1"], ["w"]], records := [],
      trace := [Event.git "ra" (GitCmd.add ["w", "ws1", "A"]),
                Event.git "rb" (GitCmd.add ["w", "ws1", "B"])] }
    (by rfl) (by rfl) (by rfl)
  have h2 := b2
    [{ repository := rG, targetPath := ["w", "ws1", "G"], branch := "" }]
    { fs := [["w", "ws1", "G"], ["w", "ws1"], ["w"]], records := [],
      trace := [Event.git "rg" (GitCmd.add ["w", "ws1", "G"])] }
    (by rfl) (by rfl) (by rfl)
  have h3 := b3
    [{ repository := rA, targetPath := ["w", "ws1", "A"], branch := "" }]
    { fs := [["w", "ws1", "A"], ["w", "ws1"], ["w"]], records := [],
      trace := [Event.git "ra" (GitCmd.add ["w", "ws1", "A"])] }
    { fs := [["w", "ws1", "A"], ["w", "ws1"], ["w"]], records := [],
      trace := [Event.git "ra" (GitCmd.add ["w", "ws1", "A"])] }
    { fs := [["w", "ws1", "A"], ["w", "ws1"], ["w"]], records := [],
      trace := [Event.git "ra" (GitCmd.add ["w", "ws1", "A"])] }
    "failed to read source file"
    (by rfl) (by rfl) (by decide) (by rfl)
  exact ⟨h1.2.1.trans rfl, h2.2.1.trans rfl, h3.2.1.trans rfl, by decide, by decide⟩

end Wsm
